import Mathlib

/-!
MFA-Login backend: a shallow embedding of `backend/main.go`.

The Go program keeps two process-wide stores, a slice of users and a map from
username to a pending one-time code, and exposes three HTTP handlers over them.
Each handler is embedded as a function from the stores and the decoded request
to the response written and the stores left behind.

What the handlers obtain from outside the program is passed in explicitly:

* `bcrypt.GenerateFromPassword` and `bcrypt.CompareHashAndPassword` are
  function arguments (the first is salted, so each call may receive its own);
* the outcome of `rand.Int(rand.Reader, 900000)` is an argument of `generateOTP`;
* the reading of `time.Now()` is an argument, in nanoseconds;
* `json.Decoder.Decode` has already run: a request carries the decoded body,
  or `none` when decoding failed.

`strings.TrimSpace` and the `%06d` verb of `fmt.Sprintf` are written out.

The handlers `handleRegister`, `handleLogin` and `handleVerifyOTP` below run a
request from its first line to its last with no other request in between, and
`runEvents` serves a finite sequence of requests that way. Requests served at
the same time are modelled by `Task` and `Pool`: a request is cut at the points
where its handler takes the mutex, and a schedule says which request runs its
next locked region.
-/

namespace MFALogin

/-! ## Data model -/

/-- A Go `error` value: `none` is `nil`, `some msg` an error. -/
abbrev GoError := Option String

/-- Go `type User struct`. -/
structure User where
  username : String
  passwordHash : String
deriving DecidableEq, Repr

/-- Go `type OTPEntry struct`; `expiresAt` is an instant in nanoseconds. -/
structure OTPEntry where
  code : String
  expiresAt : Int
deriving DecidableEq, Repr

/-- Go `type RegisterRequest struct`. -/
structure RegisterRequest where
  username : String
  password : String
deriving DecidableEq, Repr

/-- Go `type LoginRequest struct`. -/
structure LoginRequest where
  username : String
  password : String
deriving DecidableEq, Repr

/-- Go `type VerifyOTPRequest struct`. -/
structure VerifyOTPRequest where
  username : String
  otp : String
deriving DecidableEq, Repr

/-- What `jsonResponse` writes: the status code and the `APIResponse` message. -/
structure APIResponse where
  status : Nat
  message : String
deriving DecidableEq, Repr

/-- The part of `*http.Request` a handler reads: the method and the JSON body
as `Decode` delivers it (`none` when `Decode` returns an error). -/
structure HttpRequest (β : Type) where
  method : String
  body : Option β

/-- The package-level variables `users` and `otpData`. The Go map is kept as an
association list holding at most one pair per key. -/
structure Store where
  users : List User
  otpData : List (String × OTPEntry)
deriving DecidableEq, Repr

/-- The stores at program start: `[]User{}` and an empty map. -/
def Store.init : Store := ⟨[], []⟩

/-! ## The Go map operations used on `otpData` -/

/-- Map read `otpData[k]` with the comma-ok form. -/
def mapGet : List (String × OTPEntry) → String → Option OTPEntry
  | [], _ => none
  | (k', v) :: rest, k => if k' = k then some v else mapGet rest k

/-- Builtin `delete(otpData, k)`. -/
def mapDelete (m : List (String × OTPEntry)) (k : String) : List (String × OTPEntry) :=
  m.filter (fun kv => decide (kv.1 ≠ k))

/-- Map write `otpData[k] = v`: any pair already under `k` is replaced. -/
def mapPut (m : List (String × OTPEntry)) (k : String) (v : OTPEntry) :
    List (String × OTPEntry) :=
  (k, v) :: mapDelete m k

/-- Number of pairs stored under key `k`. -/
def mapCount (m : List (String × OTPEntry)) (k : String) : Nat :=
  (m.filter (fun kv => decide (kv.1 = k))).length

/-! ## Library functions written out -/

/-- Go `unicode.IsSpace`: the Latin-1 cases and the `White_Space` range table. -/
def isSpace (c : Char) : Bool :=
  let n := c.toNat
  (decide (0x09 ≤ n) && decide (n ≤ 0x0D)) || n == 0x20 || n == 0x85 || n == 0xA0
    || n == 0x1680 || (decide (0x2000 ≤ n) && decide (n ≤ 0x200A))
    || n == 0x2028 || n == 0x2029 || n == 0x202F || n == 0x205F || n == 0x3000

/-- Go `strings.TrimSpace`: drop leading and trailing white space. -/
def trimSpace (s : String) : String :=
  ⟨((s.data.dropWhile isSpace).reverse.dropWhile isSpace).reverse⟩

/-- Go `(*big.Int).Int64` followed by `int(...)` on a 64-bit platform: the low
64 bits read as a signed integer. -/
def toInt64 (n : Nat) : Int :=
  if n % 2 ^ 64 < 2 ^ 63 then (n % 2 ^ 64 : Nat) else (n % 2 ^ 64 : Nat) - 2 ^ 64

/-- Signed 64-bit wrap of an integer result. -/
def wrapInt64 (i : Int) : Int :=
  toInt64 (i % 2 ^ 64).toNat

/-- Left padding with `'0'` up to width `w`. -/
def zeroPad (w : Nat) (ds : List Char) : List Char :=
  List.replicate (w - ds.length) '0' ++ ds

/-- The verb `%06d` of `fmt.Sprintf`: decimal digits, a leading `-` for a
negative number, zeros after the sign up to a total width of six. -/
def sprintf06d (i : Int) : String :=
  if i < 0 then ⟨'-' :: zeroPad 5 (Nat.toDigits 10 i.natAbs)⟩
  else ⟨zeroPad 6 (Nat.toDigits 10 i.natAbs)⟩

/-- Go `2 * time.Minute`, in nanoseconds. -/
def twoMinutes : Int := 2 * (60 * 1000000000)

/-! ## Utility functions of `main.go` -/

/-- Go `findUser`: the first record whose username equals the argument. -/
def findUser : List User → String → Option User
  | [], _ => none
  | u :: rest, username => if u.username = username then some u else findUser rest username

/-- Go `generateOTP`. The argument is the outcome of
`rand.Int(rand.Reader, big.NewInt(900000))`. -/
def generateOTP (rnd : Except String Nat) : Except String String :=
  match rnd with
  | .error e => .error e
  | .ok nBig =>
    let otp := wrapInt64 (100000 + toInt64 nBig)
    .ok (sprintf06d otp)

/-! ## Handlers -/

/-- Go `handleRegister`. `generateFromPassword` stands for
`bcrypt.GenerateFromPassword(_, bcrypt.DefaultCost)`. The first component of the
result is the response written (`none` when the handler returns without
calling `jsonResponse`), the second the stores afterwards. -/
def handleRegister (generateFromPassword : String → Except String String)
    (s : Store) (r : HttpRequest RegisterRequest) : Option APIResponse × Store :=
  if r.method = "OPTIONS" then (none, s)
  else if r.method ≠ "POST" then (some ⟨405, "Method not allowed"⟩, s)
  else
    match r.body with
    | none => (some ⟨400, "Invalid JSON"⟩, s)
    | some req =>
      let username := trimSpace req.username
      let password := trimSpace req.password
      if username = "" ∨ password = "" then
        (some ⟨400, "Username and password required"⟩, s)
      else
        match findUser s.users username with
        | some _ => (some ⟨409, "User already exists"⟩, s)
        | none =>
          match generateFromPassword password with
          | .error _ => (some ⟨500, "Failed to hash password"⟩, s)
          | .ok hashBytes =>
            (some ⟨201, "User registered successfully"⟩,
              ⟨s.users ++ [⟨username, hashBytes⟩], s.otpData⟩)

/-- Go `handleLogin`. `compareHashAndPassword` stands for
`bcrypt.CompareHashAndPassword`, `rnd` for the outcome of the random draw inside
`generateOTP`, `now` for the reading of `time.Now()`. -/
def handleLogin (compareHashAndPassword : String → String → GoError)
    (rnd : Except String Nat) (now : Int)
    (s : Store) (r : HttpRequest LoginRequest) : Option APIResponse × Store :=
  if r.method = "OPTIONS" then (none, s)
  else if r.method ≠ "POST" then (some ⟨405, "Method not allowed"⟩, s)
  else
    match r.body with
    | none => (some ⟨400, "Invalid JSON"⟩, s)
    | some req =>
      let username := trimSpace req.username
      let password := trimSpace req.password
      if username = "" ∨ password = "" then
        (some ⟨400, "Username and password required"⟩, s)
      else
        match findUser s.users username with
        | none => (some ⟨401, "Invalid credentials"⟩, s)
        | some user =>
          match compareHashAndPassword user.passwordHash password with
          | some _ => (some ⟨401, "Invalid credentials"⟩, s)
          | none =>
            match generateOTP rnd with
            | .error _ => (some ⟨500, "Failed to generate OTP"⟩, s)
            | .ok otp =>
              (some ⟨200, "Password verified. OTP sent (check backend console)."⟩,
                ⟨s.users, mapPut s.otpData username ⟨otp, now + twoMinutes⟩⟩)

/-- Go `handleVerifyOTP`; `now` is the reading of `time.Now()`. -/
def handleVerifyOTP (now : Int)
    (s : Store) (r : HttpRequest VerifyOTPRequest) : Option APIResponse × Store :=
  if r.method = "OPTIONS" then (none, s)
  else if r.method ≠ "POST" then (some ⟨405, "Method not allowed"⟩, s)
  else
    match r.body with
    | none => (some ⟨400, "Invalid JSON"⟩, s)
    | some req =>
      let username := trimSpace req.username
      let otp := trimSpace req.otp
      if username = "" ∨ otp = "" then
        (some ⟨400, "Username and OTP required"⟩, s)
      else
        match mapGet s.otpData username with
        | none => (some ⟨401, "OTP not found. Login again."⟩, s)
        | some entry =>
          if now > entry.expiresAt then
            (some ⟨401, "OTP expired. Login again."⟩, ⟨s.users, mapDelete s.otpData username⟩)
          else if otp ≠ entry.code then
            (some ⟨401, "Invalid OTP"⟩, s)
          else
            (some ⟨200, "Login Successful ✅"⟩, ⟨s.users, mapDelete s.otpData username⟩)

/-! ## Requests as the claims name them -/

/-- A `POST /api/register` whose body decodes to the two fields. -/
def register (u p : String) : HttpRequest RegisterRequest := ⟨"POST", some ⟨u, p⟩⟩

/-- A `POST /api/login` whose body decodes to the two fields. -/
def login (u p : String) : HttpRequest LoginRequest := ⟨"POST", some ⟨u, p⟩⟩

/-- A `POST /api/verify-otp` whose body decodes to the two fields. -/
def verifyOTP (u c : String) : HttpRequest VerifyOTPRequest := ⟨"POST", some ⟨u, c⟩⟩

/-! ## Names the specification gives to the responses -/

/-- Response `Created` of register. -/
abbrev Created : APIResponse := ⟨201, "User registered successfully"⟩

/-- Response `UserExists` of register. -/
abbrev UserExists : APIResponse := ⟨409, "User already exists"⟩

/-- Response `InvalidInput` of register and login. -/
abbrev InvalidInput : APIResponse := ⟨400, "Username and password required"⟩

/-- Response `InvalidInput` of verifyOTP. -/
abbrev InvalidInputOTP : APIResponse := ⟨400, "Username and OTP required"⟩

/-- Response `InvalidCredentials` of login. -/
abbrev InvalidCredentials : APIResponse := ⟨401, "Invalid credentials"⟩

/-- Response `OTPPending` of login. -/
abbrev OTPPending : APIResponse :=
  ⟨200, "Password verified. OTP sent (check backend console)."⟩

/-- Response `Authenticated` of verifyOTP. -/
abbrev Authenticated : APIResponse := ⟨200, "Login Successful ✅"⟩

/-- Response `NoPendingOTP` of verifyOTP. -/
abbrev NoPendingOTP : APIResponse := ⟨401, "OTP not found. Login again."⟩

/-- Response `OTPExpired` of verifyOTP. -/
abbrev OTPExpired : APIResponse := ⟨401, "OTP expired. Login again."⟩

/-- Response `InvalidOTP` of verifyOTP. -/
abbrev InvalidOTP : APIResponse := ⟨401, "Invalid OTP"⟩

/-! ## Vocabulary of the claims -/

/-- Value of a string read as a decimal numeral, most significant digit first. -/
def decimalValue (s : String) : Nat :=
  s.data.foldl (fun acc c => 10 * acc + (c.toNat - 48)) 0

/-- The stores after a run of verify requests for one username, each given as the
submitted code and the time of the request. -/
def verifyAttempts (s : Store) (u : String) (attempts : List (String × Int)) : Store :=
  attempts.foldl (fun st a => (handleVerifyOTP a.2 st (verifyOTP u a.1)).2) s

/-- A `bcrypt.GenerateFromPassword` used in examples: the hash is the password
behind a fixed marker. -/
def sampleGenerate (p : String) : Except String String := .ok ("$2a$10$" ++ p)

/-- A `bcrypt.CompareHashAndPassword` used in examples, matching `sampleGenerate`. -/
def sampleCompare (h p : String) : GoError :=
  if h = "$2a$10$" ++ p then none else some "hashedPassword is not the hash of the given password"

/-- A store with one registered user and no pending code, used in examples. -/
def sampleStore : Store := ⟨[⟨"alice", "$2a$10$Secr3t!"⟩], []⟩

/-- Response `InternalError` of register. -/
abbrev InternalErrorHash : APIResponse := ⟨500, "Failed to hash password"⟩

/-- Response `InternalError` of login. -/
abbrev InternalErrorOTP : APIResponse := ⟨500, "Failed to generate OTP"⟩

/-! ## Requests served one after another -/

/-- What `rand.Int(rand.Reader, big.NewInt(900000))` can deliver: an error, or a
number below 900000. -/
abbrev Draw := Except String (Fin 900000)

/-- The draw as `generateOTP` receives it. -/
def Draw.outcome : Draw → Except String Nat
  | .error e => .error e
  | .ok n => .ok n.val

/-- One request reaching the server, with what its handler obtains from outside
the program while serving it. -/
inductive Event where
  | register (gen : String → Except String String) (r : HttpRequest RegisterRequest)
  | login (cmp : String → String → GoError) (rnd : Draw) (now : Int)
      (r : HttpRequest LoginRequest)
  | verifyOTP (now : Int) (r : HttpRequest VerifyOTPRequest)

/-- The stores after the handler of one request has run. -/
def Event.apply (s : Store) : Event → Store
  | .register gen r => (handleRegister gen s r).2
  | .login cmp rnd now r => (handleLogin cmp rnd.outcome now s r).2
  | .verifyOTP now r => (handleVerifyOTP now s r).2

/-- The stores after a finite sequence of requests, served in order. -/
def runEvents (s : Store) (es : List Event) : Store :=
  es.foldl Event.apply s

/-- Number of records of the user list carrying the username `name`. -/
def userCount (us : List User) (name : String) : Nat :=
  (us.filter (fun r => decide (r.username = name))).length

/-! ## Requests served at the same time

Every handler touches `users` and `otpData` only between `mu.Lock()` and
`mu.Unlock()`. A request in flight is cut at those points: one step of a task
runs the handler up to and including its next locked region, together with the
lock-free code that leads to it and follows it. `handleRegister` has one such
region (lines 110-131, the unlock being deferred), `handleLogin` two (lines
157-159 and 180-185), `handleVerifyOTP` two (lines 217-219 and, on either
deleting path, lines 227-229 or 240-242). -/

/-- A request in flight. -/
inductive Task where
  | register (gen : String → Except String String) (r : HttpRequest RegisterRequest)
  | login (cmp : String → String → GoError) (rnd : Except String Nat) (now : Int)
      (r : HttpRequest LoginRequest)
  | loginStore (username otp : String) (now : Int)
  | verify (now : Int) (r : HttpRequest VerifyOTPRequest)
  | verifyDelete (username : String) (resp : APIResponse)
  | done (resp : Option APIResponse)

/-- The response a task has written, once it has finished. -/
def Task.result : Task → Option (Option APIResponse)
  | .done resp => some resp
  | _ => none

/-- First part of `handleLogin`: up to the lookup under the lock (lines 133-159)
and on through the password check and `generateOTP` (lines 161-178). -/
def loginLookup (compareHashAndPassword : String → String → GoError)
    (rnd : Except String Nat) (now : Int) (s : Store) (r : HttpRequest LoginRequest) : Task :=
  if r.method = "OPTIONS" then .done none
  else if r.method ≠ "POST" then .done (some ⟨405, "Method not allowed"⟩)
  else
    match r.body with
    | none => .done (some ⟨400, "Invalid JSON"⟩)
    | some req =>
      let username := trimSpace req.username
      let password := trimSpace req.password
      if username = "" ∨ password = "" then
        .done (some ⟨400, "Username and password required"⟩)
      else
        match findUser s.users username with
        | none => .done (some ⟨401, "Invalid credentials"⟩)
        | some user =>
          match compareHashAndPassword user.passwordHash password with
          | some _ => .done (some ⟨401, "Invalid credentials"⟩)
          | none =>
            match generateOTP rnd with
            | .error _ => .done (some ⟨500, "Failed to generate OTP"⟩)
            | .ok otp => .loginStore username otp now

/-- First part of `handleVerifyOTP`: up to the map read under the lock (lines
193-219) and on through the expiry and code checks (lines 221-237). -/
def verifyLookup (now : Int) (s : Store) (r : HttpRequest VerifyOTPRequest) : Task :=
  if r.method = "OPTIONS" then .done none
  else if r.method ≠ "POST" then .done (some ⟨405, "Method not allowed"⟩)
  else
    match r.body with
    | none => .done (some ⟨400, "Invalid JSON"⟩)
    | some req =>
      let username := trimSpace req.username
      let otp := trimSpace req.otp
      if username = "" ∨ otp = "" then
        .done (some ⟨400, "Username and OTP required"⟩)
      else
        match mapGet s.otpData username with
        | none => .done (some ⟨401, "OTP not found. Login again."⟩)
        | some entry =>
          if now > entry.expiresAt then
            .verifyDelete username ⟨401, "OTP expired. Login again."⟩
          else if otp ≠ entry.code then
            .done (some ⟨401, "Invalid OTP"⟩)
          else
            .verifyDelete username ⟨200, "Login Successful ✅"⟩

/-- One step of a task: the next locked region of its handler. -/
def Task.step (t : Task) (s : Store) : Task × Store :=
  match t with
  | .register gen r => (.done (handleRegister gen s r).1, (handleRegister gen s r).2)
  | .login cmp rnd now r => (loginLookup cmp rnd now s r, s)
  | .loginStore username otp now =>
    (.done (some ⟨200, "Password verified. OTP sent (check backend console)."⟩),
      ⟨s.users, mapPut s.otpData username ⟨otp, now + twoMinutes⟩⟩)
  | .verify now r => (verifyLookup now s r, s)
  | .verifyDelete username resp => (.done (some resp), ⟨s.users, mapDelete s.otpData username⟩)
  | .done resp => (.done resp, s)

/-- The requests in flight and the stores they share. -/
structure Pool where
  tasks : List Task
  store : Store

/-- The scheduler lets task number `i` take the lock and run its next step. -/
def Pool.step (p : Pool) (i : Nat) : Pool :=
  match p.tasks[i]? with
  | none => p
  | some t => ⟨p.tasks.set i (t.step p.store).1, (t.step p.store).2⟩

/-- An interleaving: the order in which the tasks take the lock. -/
def Pool.run (p : Pool) (schedule : List Nat) : Pool :=
  schedule.foldl Pool.step p

/-- The responses written so far, by task number. -/
def Pool.results (p : Pool) : List (Option (Option APIResponse)) :=
  p.tasks.map Task.result

/-- A six-digit code: exactly six ASCII digits with decimal value between 100000
and 999999. -/
def SixDigitCode (code : String) : Prop :=
  code.length = 6 ∧ (∀ c ∈ code.data, c.isDigit = true)
    ∧ 100000 ≤ decimalValue code ∧ decimalValue code ≤ 999999

instance (code : String) : Decidable (SixDigitCode code) := by
  unfold SixDigitCode
  infer_instance

/-- A register call about to be served: the hash function it will use and the two
fields of its body. -/
structure RegisterCall where
  gen : String → Except String String
  username : String
  password : String

/-- The task of a register call. -/
def RegisterCall.task (c : RegisterCall) : Task :=
  .register c.gen (register c.username c.password)

/-- A register task for the username `name` that has not run yet, with a password
non-empty after trimming and a hash computation that succeeds on it. -/
def PendingRegister (name : String) (t : Task) : Prop :=
  ∃ c : RegisterCall, t = c.task ∧ trimSpace c.username = name ∧ trimSpace c.password ≠ ""
    ∧ ∃ h, c.gen (trimSpace c.password) = .ok h

/-- State of a race of register calls for `name`: either nobody holds the name and
every task is still pending, or the name is held by one record, one task has
answered Created and every other task is pending or has answered UserExists. -/
def RegisterRace (name : String) (p : Pool) : Prop :=
  (userCount p.store.users name = 0
      ∧ ∀ (j : Nat) (t : Task), p.tasks[j]? = some t → PendingRegister name t)
    ∨ (userCount p.store.users name = 1
      ∧ ∃ i : Nat, p.tasks[i]? = some (Task.done (some Created))
        ∧ ∀ (j : Nat) (t : Task), j ≠ i → p.tasks[j]? = some t →
            PendingRegister name t ∨ t = Task.done (some UserExists))

/-! ## Lemmas on the map operations -/

theorem mapGet_mapDelete_self (m : List (String × OTPEntry)) (k : String) :
    mapGet (mapDelete m k) k = none := by
  induction m with
  | nil => rfl
  | cons kv rest ih =>
    by_cases h : kv.1 = k
    · simpa [mapDelete, h] using ih
    · simpa [mapDelete, mapGet, h] using ih

theorem mapGet_mapDelete_of_ne (m : List (String × OTPEntry)) (k k' : String) (h : k' ≠ k) :
    mapGet (mapDelete m k) k' = mapGet m k' := by
  induction m with
  | nil => rfl
  | cons kv rest ih =>
    obtain ⟨a, b⟩ := kv
    by_cases h1 : a = k
    · subst h1
      have h2 : ¬ a = k' := fun e => h e.symm
      simpa [mapDelete, mapGet, h2] using ih
    · by_cases h2 : a = k'
      · subst h2
        simp [mapDelete, mapGet, h1]
      · simpa [mapDelete, mapGet, h1, h2] using ih

theorem mapCount_mapDelete_self (m : List (String × OTPEntry)) (k : String) :
    mapCount (mapDelete m k) k = 0 := by
  induction m with
  | nil => rfl
  | cons kv rest ih =>
    by_cases h : kv.1 = k
    · simp [mapDelete, mapCount, h]
    · simp [mapDelete, mapCount, h]

theorem mapGet_mapPut_self (m : List (String × OTPEntry)) (k : String) (v : OTPEntry) :
    mapGet (mapPut m k v) k = some v := by
  simp [mapPut, mapGet]

theorem mapCount_mapPut_self (m : List (String × OTPEntry)) (k : String) (v : OTPEntry) :
    mapCount (mapPut m k v) k = 1 := by
  have h := mapCount_mapDelete_self m k
  simp only [mapCount] at h
  simp [mapPut, mapCount, h]

theorem mapDelete_of_mapGet_none (m : List (String × OTPEntry)) (k : String)
    (h : mapGet m k = none) : mapDelete m k = m := by
  induction m with
  | nil => rfl
  | cons kv rest ih =>
    obtain ⟨a, b⟩ := kv
    by_cases h1 : a = k
    · simp [mapGet, h1] at h
    · simp only [mapGet, h1, if_false] at h
      have e := ih h
      unfold mapDelete at e ⊢
      rw [List.filter_cons_of_pos (by simpa using h1), e]

/-! ## Lemmas on `findUser` -/

theorem findUser_append_of_none (l : List User) (k h : String)
    (hn : findUser l k = none) : findUser (l ++ [⟨k, h⟩]) k = some ⟨k, h⟩ := by
  induction l with
  | nil => simp [findUser]
  | cons u rest ih =>
    by_cases h1 : u.username = k
    · simp [findUser, h1] at hn
    · simp only [findUser, h1, if_false] at hn
      simpa [findUser, h1] using ih hn

/-! ## The handlers on a well-formed request -/

theorem handleRegister_post (gen : String → Except String String) (s : Store) (u p : String)
    (hu : trimSpace u ≠ "") (hp : trimSpace p ≠ "") :
    handleRegister gen s (register u p) =
      match findUser s.users (trimSpace u) with
      | some _ => (some UserExists, s)
      | none =>
        match gen (trimSpace p) with
        | .error _ => (some ⟨500, "Failed to hash password"⟩, s)
        | .ok hashBytes => (some Created, ⟨s.users ++ [⟨trimSpace u, hashBytes⟩], s.otpData⟩) := by
  simp [handleRegister, register, hu, hp]

theorem handleLogin_post (cmp : String → String → GoError) (rnd : Except String Nat)
    (now : Int) (s : Store) (u p : String)
    (hu : trimSpace u ≠ "") (hp : trimSpace p ≠ "") :
    handleLogin cmp rnd now s (login u p) =
      match findUser s.users (trimSpace u) with
      | none => (some InvalidCredentials, s)
      | some user =>
        match cmp user.passwordHash (trimSpace p) with
        | some _ => (some InvalidCredentials, s)
        | none =>
          match generateOTP rnd with
          | .error _ => (some ⟨500, "Failed to generate OTP"⟩, s)
          | .ok otp =>
            (some OTPPending, ⟨s.users, mapPut s.otpData (trimSpace u) ⟨otp, now + twoMinutes⟩⟩) := by
  simp [handleLogin, login, hu, hp]

theorem handleVerifyOTP_post (now : Int) (s : Store) (u c : String)
    (hu : trimSpace u ≠ "") (hc : trimSpace c ≠ "") :
    handleVerifyOTP now s (verifyOTP u c) =
      match mapGet s.otpData (trimSpace u) with
      | none => (some NoPendingOTP, s)
      | some entry =>
        if now > entry.expiresAt then
          (some OTPExpired, ⟨s.users, mapDelete s.otpData (trimSpace u)⟩)
        else if trimSpace c ≠ entry.code then (some InvalidOTP, s)
        else (some Authenticated, ⟨s.users, mapDelete s.otpData (trimSpace u)⟩) := by
  simp [handleVerifyOTP, verifyOTP, hu, hc]

theorem handleRegister_blank (gen : String → Except String String) (s : Store) (u p : String)
    (h : trimSpace u = "" ∨ trimSpace p = "") :
    handleRegister gen s (register u p) = (some InvalidInput, s) := by
  simp [handleRegister, register, h]

theorem handleLogin_blank (cmp : String → String → GoError) (rnd : Except String Nat)
    (now : Int) (s : Store) (u p : String) (h : trimSpace u = "" ∨ trimSpace p = "") :
    handleLogin cmp rnd now s (login u p) = (some InvalidInput, s) := by
  simp [handleLogin, login, h]

theorem handleVerifyOTP_blank (now : Int) (s : Store) (u c : String)
    (h : trimSpace u = "" ∨ trimSpace c = "") :
    handleVerifyOTP now s (verifyOTP u c) = (some InvalidInputOTP, s) := by
  simp [handleVerifyOTP, verifyOTP, h]

/-! ## Decimal digits -/

theorem toDigits_six (m : Nat) (h1 : 100000 ≤ m) (h2 : m < 1000000) :
    Nat.toDigits 10 m =
      [Nat.digitChar (m / 100000 % 10), Nat.digitChar (m / 10000 % 10),
       Nat.digitChar (m / 1000 % 10), Nat.digitChar (m / 100 % 10),
       Nat.digitChar (m / 10 % 10), Nat.digitChar (m % 10)] := by
  obtain ⟨k, rfl⟩ : ∃ k, m = k + 5 := ⟨m - 5, by omega⟩
  have e1 : (k + 5) / 10 ≠ 0 := by omega
  have e2 : (k + 5) / 10 / 10 ≠ 0 := by omega
  have e3 : (k + 5) / 10 / 10 / 10 ≠ 0 := by omega
  have e4 : (k + 5) / 10 / 10 / 10 / 10 ≠ 0 := by omega
  have e5 : (k + 5) / 10 / 10 / 10 / 10 / 10 ≠ 0 := by omega
  have e6 : (k + 5) / 10 / 10 / 10 / 10 / 10 / 10 = 0 := by omega
  simp only [Nat.toDigits, Nat.toDigitsCore, e1, e2, e3, e4, e5, e6, if_true, if_false]
  simp only [Nat.div_div_eq_div_mul, Nat.reduceMul]

theorem digitChar_isDigit (k : Nat) (h : k < 10) : (Nat.digitChar k).isDigit = true := by
  interval_cases k <;> decide

theorem digitChar_toNat (k : Nat) (h : k < 10) : (Nat.digitChar k).toNat = 48 + k := by
  interval_cases k <;> decide

theorem digitChar_isSpace (k : Nat) (h : k < 10) : isSpace (Nat.digitChar k) = false := by
  interval_cases k <;> decide

theorem generateOTP_ok (n : Nat) (h : n < 900000) :
    generateOTP (.ok n) = .ok ⟨Nat.toDigits 10 (100000 + n)⟩ := by
  have a1 : n % 2 ^ 64 = n := Nat.mod_eq_of_lt (by omega)
  have a2 : toInt64 n = (n : Int) := by
    unfold toInt64
    rw [a1, if_pos (by omega)]
  have a3 : wrapInt64 (100000 + (n : Int)) = ((100000 + n : Nat) : Int) := by
    unfold wrapInt64
    have b1 : ((100000 + (n : Int)) % 2 ^ 64).toNat = 100000 + n := by omega
    rw [b1]
    unfold toInt64
    have b2 : (100000 + n) % 2 ^ 64 = 100000 + n := Nat.mod_eq_of_lt (by omega)
    rw [b2, if_pos (by omega)]
  have a4 : (Nat.toDigits 10 (100000 + n)).length = 6 := by
    rw [toDigits_six _ (by omega) (by omega)]; rfl
  have a5 : ¬ (((100000 + n : Nat) : Int) < 0) := by omega
  simp only [generateOTP, a2]
  rw [a3]
  unfold sprintf06d
  rw [if_neg a5, Int.natAbs_ofNat]
  simp [zeroPad, a4]

/-! ## Generated codes carry no white space -/

theorem dropWhile_of_head (p : Char → Bool) (l : List Char) (h : ∀ c ∈ l, p c = false) :
    l.dropWhile p = l := by
  cases l with
  | nil => rfl
  | cons a rest => simp [List.dropWhile, h a (List.mem_cons_self a rest)]

theorem trimSpace_of_noSpace (s : String) (h : ∀ c ∈ s.data, isSpace c = false) :
    trimSpace s = s := by
  unfold trimSpace
  rw [dropWhile_of_head isSpace s.data h,
    dropWhile_of_head isSpace s.data.reverse (fun c hc => h c (List.mem_reverse.mp hc)),
    List.reverse_reverse]

theorem toDigitsCore_mem (f : Nat) : ∀ (n : Nat) (ds : List Char) (c : Char),
    c ∈ Nat.toDigitsCore 10 f n ds → c ∈ ds ∨ ∃ k, k < 10 ∧ c = Nat.digitChar k := by
  induction f with
  | zero => intro n ds c hc; exact Or.inl (by simpa [Nat.toDigitsCore] using hc)
  | succ f ih =>
    intro n ds c hc
    simp only [Nat.toDigitsCore] at hc
    have hd : ∀ x, x ∈ Nat.digitChar (n % 10) :: ds →
        x ∈ ds ∨ ∃ k, k < 10 ∧ x = Nat.digitChar k := by
      intro x hx
      rcases List.mem_cons.mp hx with hx | hx
      · exact Or.inr ⟨n % 10, Nat.mod_lt _ (by decide), hx⟩
      · exact Or.inl hx
    split at hc
    · exact hd c hc
    · rcases ih _ _ c hc with h1 | h1
      · exact hd c h1
      · exact Or.inr h1

theorem toDigitsCore_ne_nil (f : Nat) : ∀ (n : Nat) (ds : List Char),
    ds ≠ [] → Nat.toDigitsCore 10 f n ds ≠ [] := by
  induction f with
  | zero => intro n ds h; simpa [Nat.toDigitsCore] using h
  | succ f ih =>
    intro n ds _
    simp only [Nat.toDigitsCore]
    split
    · exact List.cons_ne_nil _ _
    · exact ih _ _ (List.cons_ne_nil _ _)

theorem toDigits_ne_nil (n : Nat) : Nat.toDigits 10 n ≠ [] := by
  simp only [Nat.toDigits, Nat.toDigitsCore]
  split
  · exact List.cons_ne_nil _ _
  · exact toDigitsCore_ne_nil _ _ _ (List.cons_ne_nil _ _)

theorem toDigits_noSpace (n : Nat) (c : Char) (hc : c ∈ Nat.toDigits 10 n) :
    isSpace c = false := by
  rcases toDigitsCore_mem _ _ _ c hc with h | ⟨k, hk, rfl⟩
  · cases h
  · exact digitChar_isSpace k hk

theorem zeroPad_noSpace (w n : Nat) (c : Char) (hc : c ∈ zeroPad w (Nat.toDigits 10 n)) :
    isSpace c = false := by
  rcases List.mem_append.mp hc with h | h
  · rw [(List.mem_replicate.mp h).2]; decide
  · exact toDigits_noSpace n c h

theorem sprintf06d_noSpace (i : Int) (c : Char) (hc : c ∈ (sprintf06d i).data) :
    isSpace c = false := by
  unfold sprintf06d at hc
  split at hc
  · rcases List.mem_cons.mp hc with h | h
    · rw [h]; decide
    · exact zeroPad_noSpace _ _ c h
  · exact zeroPad_noSpace _ _ c hc

theorem sprintf06d_ne_empty (i : Int) : sprintf06d i ≠ "" := by
  intro h
  have hd : (sprintf06d i).data = [] := by rw [h]
  unfold sprintf06d at hd
  split at hd
  · exact List.cons_ne_nil _ _ hd
  · exact toDigits_ne_nil _ (List.append_eq_nil.mp hd).2

theorem generated_code_trim (rnd : Except String Nat) (code : String)
    (h : generateOTP rnd = .ok code) : trimSpace code = code ∧ code ≠ "" := by
  cases rnd with
  | error e => simp [generateOTP] at h
  | ok n =>
    simp only [generateOTP, Except.ok.injEq] at h
    subst h
    exact ⟨trimSpace_of_noSpace _ (sprintf06d_noSpace _), sprintf06d_ne_empty _⟩

/-! ## What a successful login leaves behind -/

theorem login_OTPPending_inv (cmp : String → String → GoError) (rnd : Except String Nat)
    (now : Int) (s : Store) (u p : String)
    (h : (handleLogin cmp rnd now s (login u p)).1 = some OTPPending) :
    trimSpace u ≠ "" ∧ ∃ code, generateOTP rnd = .ok code ∧
      (handleLogin cmp rnd now s (login u p)).2
        = ⟨s.users, mapPut s.otpData (trimSpace u) ⟨code, now + twoMinutes⟩⟩ := by
  have hu : trimSpace u ≠ "" := by
    intro hb
    rw [handleLogin_blank cmp rnd now s u p (Or.inl hb)] at h
    simp at h
  have hp : trimSpace p ≠ "" := by
    intro hb
    rw [handleLogin_blank cmp rnd now s u p (Or.inr hb)] at h
    simp at h
  refine ⟨hu, ?_⟩
  rw [handleLogin_post cmp rnd now s u p hu hp] at h ⊢
  cases hf : findUser s.users (trimSpace u) with
  | none => simp [hf] at h
  | some usr =>
    simp only [hf] at h ⊢
    cases hcmp : cmp usr.passwordHash (trimSpace p) with
    | some e => simp [hcmp] at h
    | none =>
      simp only [hcmp] at h ⊢
      cases hg : generateOTP rnd with
      | error e => simp [hg] at h
      | ok code => exact ⟨code, rfl, rfl⟩

/-! ## Claims -/

/-- C1: register followed by login with the same credentials. For every store,
username and password non-empty after trimming: if register answers 201 Created
and the hash comparison accepts the trimmed password against the hash produced
from it, then a login whose OTP generation yields `code` answers 200
(OTPPending), the OTP store then holds under the trimmed username exactly one
entry, carrying `code` and `now + 2 minutes`, and the user list is untouched. -/
theorem register_then_login_roundtrip
    (gen : String → Except String String) (cmp : String → String → GoError)
    (rnd : Except String Nat) (code : String) (now : Int) (s : Store) (u p : String)
    (hu : trimSpace u ≠ "") (hp : trimSpace p ≠ "")
    (hreg : (handleRegister gen s (register u p)).1 = some Created)
    (hcmp : ∀ h, gen (trimSpace p) = .ok h → cmp h (trimSpace p) = none)
    (hotp : generateOTP rnd = .ok code) :
    (handleLogin cmp rnd now (handleRegister gen s (register u p)).2 (login u p)).1
        = some OTPPending
      ∧ mapGet (handleLogin cmp rnd now (handleRegister gen s (register u p)).2
          (login u p)).2.otpData (trimSpace u) = some ⟨code, now + twoMinutes⟩
      ∧ mapCount (handleLogin cmp rnd now (handleRegister gen s (register u p)).2
          (login u p)).2.otpData (trimSpace u) = 1
      ∧ (handleLogin cmp rnd now (handleRegister gen s (register u p)).2
          (login u p)).2.users = (handleRegister gen s (register u p)).2.users := by
  rw [handleRegister_post gen s u p hu hp] at hreg ⊢
  cases hf : findUser s.users (trimSpace u) with
  | some usr => simp [hf] at hreg
  | none =>
    cases hg : gen (trimSpace p) with
    | error e => simp [hf, hg] at hreg
    | ok hash =>
      have hc := hcmp hash hg
      have hfind := findUser_append_of_none s.users (trimSpace u) hash hf
      simp only []
      rw [handleLogin_post cmp rnd now _ u p hu hp]
      simp only [hfind, hc, hotp]
      exact ⟨trivial, mapGet_mapPut_self _ _ _, mapCount_mapPut_self _ _ _, trivial⟩

/-- Witness of C1: alice registers on the empty stores and logs in at time 0. -/
theorem register_then_login_roundtrip_witness :
    (handleLogin sampleCompare (.ok 382913) 0
        (handleRegister sampleGenerate Store.init (register " alice" "Secr3t!")).2
        (login " alice" "Secr3t!")).1 = some OTPPending :=
  (register_then_login_roundtrip sampleGenerate sampleCompare (.ok 382913) "482913" 0
    Store.init " alice" "Secr3t!" (by decide) (by decide) (by decide)
    (by
      intro h hh
      have ht : trimSpace "Secr3t!" = "Secr3t!" := by decide
      rw [ht] at hh ⊢
      simp only [sampleGenerate, Except.ok.injEq] at hh
      subst hh
      decide)
    rfl).1

/-- C2: duplicate registration. For every store and every two register requests
whose usernames are equal after trimming, with passwords non-empty after
trimming and possibly different: if the first answers 201 Created, the second
answers 409 UserExists and leaves the user list and the OTP store exactly as the
first left them. -/
theorem duplicate_register_rejected
    (gen1 gen2 : String → Except String String) (s : Store) (u1 p1 u2 p2 : String)
    (hu : trimSpace u1 = trimSpace u2) (hp1 : trimSpace p1 ≠ "") (hp2 : trimSpace p2 ≠ "")
    (hreg : (handleRegister gen1 s (register u1 p1)).1 = some Created) :
    handleRegister gen2 (handleRegister gen1 s (register u1 p1)).2 (register u2 p2)
      = (some UserExists, (handleRegister gen1 s (register u1 p1)).2) := by
  have hu1 : trimSpace u1 ≠ "" := by
    intro hb
    rw [handleRegister_blank gen1 s u1 p1 (Or.inl hb)] at hreg
    simp at hreg
  have hu2 : trimSpace u2 ≠ "" := hu ▸ hu1
  rw [handleRegister_post gen1 s u1 p1 hu1 hp1] at hreg ⊢
  cases hf : findUser s.users (trimSpace u1) with
  | some usr => simp [hf] at hreg
  | none =>
    cases hg : gen1 (trimSpace p1) with
    | error e => simp [hf, hg] at hreg
    | ok hash =>
      have hfind := findUser_append_of_none s.users (trimSpace u1) hash hf
      simp only []
      rw [handleRegister_post gen2 _ u2 p2 hu2 hp2]
      simp only [← hu, hfind]

/-- Witness of C2: alice registers twice, the second time with padding around the
name and another password. -/
theorem duplicate_register_rejected_witness :
    handleRegister sampleGenerate
        (handleRegister sampleGenerate Store.init (register "alice" "Secr3t!")).2
        (register "  alice " "other")
      = (some UserExists,
          (handleRegister sampleGenerate Store.init (register "alice" "Secr3t!")).2) :=
  duplicate_register_rejected sampleGenerate sampleGenerate Store.init
    "alice" "Secr3t!" "  alice " "other" (by decide) (by decide) (by decide) (by decide)

/-- C3, as stated, fails: alice is registered, the comparison rejects a password
made of one space (trimmed or not), and login answers 400 InvalidInput, not
401 InvalidCredentials. -/
theorem blank_password_login_is_InvalidInput :
    findUser sampleStore.users (trimSpace "alice") = some ⟨"alice", "$2a$10$Secr3t!"⟩
      ∧ sampleCompare "$2a$10$Secr3t!" " " ≠ none
      ∧ sampleCompare "$2a$10$Secr3t!" (trimSpace " ") ≠ none
      ∧ (handleLogin sampleCompare (.ok 0) 0 sampleStore (login "alice" " ")).1
          = some InvalidInput
      ∧ (handleLogin sampleCompare (.ok 0) 0 sampleStore (login "alice" " ")).1
          ≠ some InvalidCredentials := by
  decide

/-- C3, amended: for every store, registered username and password whose hash
comparison (of the trimmed password against the stored hash) fails, login leaves
the user list and the OTP store unchanged; and when username and password are
non-empty after trimming it answers 401 InvalidCredentials. -/
theorem failed_password_check_keeps_stores
    (cmp : String → String → GoError) (rnd : Except String Nat) (now : Int)
    (s : Store) (u p : String) (usr : User)
    (hf : findUser s.users (trimSpace u) = some usr)
    (hc : cmp usr.passwordHash (trimSpace p) ≠ none) :
    (handleLogin cmp rnd now s (login u p)).2 = s
      ∧ (trimSpace u ≠ "" → trimSpace p ≠ "" →
          (handleLogin cmp rnd now s (login u p)).1 = some InvalidCredentials) := by
  have key : trimSpace u ≠ "" → trimSpace p ≠ "" →
      handleLogin cmp rnd now s (login u p) = (some InvalidCredentials, s) := by
    intro hu hp
    rw [handleLogin_post cmp rnd now s u p hu hp]
    simp only [hf]
    cases hcmp : cmp usr.passwordHash (trimSpace p) with
    | none => exact absurd hcmp hc
    | some e => rfl
  refine ⟨?_, fun hu hp => by rw [key hu hp]⟩
  by_cases hu : trimSpace u = ""
  · rw [handleLogin_blank cmp rnd now s u p (Or.inl hu)]
  · by_cases hp : trimSpace p = ""
    · rw [handleLogin_blank cmp rnd now s u p (Or.inr hp)]
    · rw [key hu hp]

/-- Witness of C3 amended: alice with a wrong password, a code pending. -/
theorem failed_password_check_keeps_stores_witness :
    (handleLogin sampleCompare (.ok 7) 50
        ⟨sampleStore.users, [("alice", ⟨"482913", 100⟩)]⟩ (login "alice" "wrong")).2
        = ⟨sampleStore.users, [("alice", ⟨"482913", 100⟩)]⟩
      ∧ (trimSpace "alice" ≠ "" → trimSpace "wrong" ≠ "" →
          (handleLogin sampleCompare (.ok 7) 50
            ⟨sampleStore.users, [("alice", ⟨"482913", 100⟩)]⟩ (login "alice" "wrong")).1
            = some InvalidCredentials) :=
  failed_password_check_keeps_stores sampleCompare (.ok 7) 50
    ⟨sampleStore.users, [("alice", ⟨"482913", 100⟩)]⟩ "alice" "wrong"
    ⟨"alice", "$2a$10$Secr3t!"⟩ (by decide) (by decide)

/-- C4, as stated, fails on a blank field. With a password made of one space both
the unregistered bob and the registered alice get 400 InvalidInput, not 401; and
a username made of one space, never registered, gets 400 where alice with a
wrong password gets 401. -/
theorem blank_field_login_is_not_401 :
    findUser sampleStore.users (trimSpace "bob") = none
      ∧ (handleLogin sampleCompare (.ok 0) 0 sampleStore (login "bob" " ")).1
          = some InvalidInput
      ∧ (handleLogin sampleCompare (.ok 0) 0 sampleStore (login "alice" " ")).1
          = some InvalidInput
      ∧ findUser sampleStore.users (trimSpace " ") = none
      ∧ (handleLogin sampleCompare (.ok 0) 0 sampleStore (login " " "wrong")).1
          = some InvalidInput
      ∧ (handleLogin sampleCompare (.ok 0) 0 sampleStore (login "alice" "wrong")).1
          = some InvalidCredentials := by
  decide

/-- C4, amended: for every store, password, unregistered username `u1` and
registered username `u2` for which the comparison of the trimmed password fails,
both usernames non-empty after trimming: the two logins write the same response
and neither changes the stores; when the password is non-empty after trimming
that response is 401 InvalidCredentials for both. -/
theorem login_no_username_enumeration
    (cmp : String → String → GoError) (rnd1 rnd2 : Except String Nat) (now1 now2 : Int)
    (s : Store) (u1 u2 p : String) (usr : User)
    (hu1 : trimSpace u1 ≠ "") (hu2 : trimSpace u2 ≠ "")
    (hf1 : findUser s.users (trimSpace u1) = none)
    (hf2 : findUser s.users (trimSpace u2) = some usr)
    (hc : cmp usr.passwordHash (trimSpace p) ≠ none) :
    (handleLogin cmp rnd1 now1 s (login u1 p)).1 = (handleLogin cmp rnd2 now2 s (login u2 p)).1
      ∧ (handleLogin cmp rnd1 now1 s (login u1 p)).2 = s
      ∧ (handleLogin cmp rnd2 now2 s (login u2 p)).2 = s
      ∧ (trimSpace p ≠ "" →
          (handleLogin cmp rnd1 now1 s (login u1 p)).1 = some InvalidCredentials
          ∧ (handleLogin cmp rnd2 now2 s (login u2 p)).1 = some InvalidCredentials) := by
  by_cases hp : trimSpace p = ""
  · rw [handleLogin_blank cmp rnd1 now1 s u1 p (Or.inr hp),
      handleLogin_blank cmp rnd2 now2 s u2 p (Or.inr hp)]
    exact ⟨rfl, rfl, rfl, fun h => absurd hp h⟩
  · have e1 : handleLogin cmp rnd1 now1 s (login u1 p) = (some InvalidCredentials, s) := by
      rw [handleLogin_post cmp rnd1 now1 s u1 p hu1 hp]
      simp only [hf1]
    have e2 : handleLogin cmp rnd2 now2 s (login u2 p) = (some InvalidCredentials, s) := by
      rw [handleLogin_post cmp rnd2 now2 s u2 p hu2 hp]
      simp only [hf2]
      cases hcmp : cmp usr.passwordHash (trimSpace p) with
      | none => exact absurd hcmp hc
      | some e => rfl
    rw [e1, e2]
    exact ⟨rfl, rfl, rfl, fun _ => ⟨rfl, rfl⟩⟩

/-- Witness of C4 amended: bob is unknown, alice is known, the password is wrong. -/
theorem login_no_username_enumeration_witness :
    (handleLogin sampleCompare (.ok 1) 0 sampleStore (login "bob" "wrong")).1
      = (handleLogin sampleCompare (.ok 2) 9 sampleStore (login "alice" "wrong")).1 :=
  (login_no_username_enumeration sampleCompare (.ok 1) (.ok 2) 0 9 sampleStore
    "bob" "alice" "wrong" ⟨"alice", "$2a$10$Secr3t!"⟩
    (by decide) (by decide) (by decide) (by decide) (by decide)).1

/-- C5: with an entry `e` pending for the username (non-empty after trimming) and a
submitted code non-empty after trimming, verifyOTP answers 200 Authenticated if
and only if the trimmed code equals the stored code as a string and `now` is not
after `expiresAt`; on success the entry is gone and the user list is as before. -/
theorem verifyOTP_success_iff
    (now : Int) (s : Store) (u c : String) (e : OTPEntry)
    (hu : trimSpace u ≠ "") (hc : trimSpace c ≠ "")
    (he : mapGet s.otpData (trimSpace u) = some e) :
    ((handleVerifyOTP now s (verifyOTP u c)).1 = some Authenticated
        ↔ (trimSpace c = e.code ∧ ¬ now > e.expiresAt))
      ∧ ((handleVerifyOTP now s (verifyOTP u c)).1 = some Authenticated →
          mapGet (handleVerifyOTP now s (verifyOTP u c)).2.otpData (trimSpace u) = none
          ∧ (handleVerifyOTP now s (verifyOTP u c)).2.users = s.users) := by
  rw [handleVerifyOTP_post now s u c hu hc]
  simp only [he]
  by_cases hexp : now > e.expiresAt
  · simp [hexp]
  · by_cases hcode : trimSpace c = e.code
    · simp [hexp, hcode, mapGet_mapDelete_self]
    · simp [hexp, hcode]

/-- Witness of C5: the right code submitted at the very instant `expiresAt`. -/
theorem verifyOTP_success_iff_witness :
    (handleVerifyOTP 100 ⟨sampleStore.users, [("alice", ⟨"482913", 100⟩)]⟩
        (verifyOTP "alice" " 482913 ")).1 = some Authenticated :=
  (verifyOTP_success_iff 100 ⟨sampleStore.users, [("alice", ⟨"482913", 100⟩)]⟩
    "alice" " 482913 " ⟨"482913", 100⟩ (by decide) (by decide) (by decide)).1.mpr
    (by decide)

/-- C6: for every draw `n` with `n < 900000`, generateOTP returns a string of
exactly 6 characters, each an ASCII digit, whose decimal value is `100000 + n`,
hence between 100000 and 999999; its first digit is not `'0'`, and it is the
plain decimal numeral of `100000 + n`, the zero padding adding nothing. -/
theorem generateOTP_six_digits (n : Nat) (h : n < 900000) :
    ∃ code : String, generateOTP (.ok n) = .ok code
      ∧ code.length = 6
      ∧ (∀ c ∈ code.data, c.isDigit = true)
      ∧ decimalValue code = 100000 + n
      ∧ 100000 ≤ decimalValue code ∧ decimalValue code ≤ 999999
      ∧ code.data.head? ≠ some '0'
      ∧ code.data = Nat.toDigits 10 (100000 + n) := by
  refine ⟨⟨Nat.toDigits 10 (100000 + n)⟩, generateOTP_ok n h, ?_⟩
  have hd := toDigits_six (100000 + n) (by omega) (by omega)
  have hv : decimalValue ⟨Nat.toDigits 10 (100000 + n)⟩ = 100000 + n := by
    simp only [decimalValue, hd, List.foldl]
    rw [digitChar_toNat _ (Nat.mod_lt _ (by decide)), digitChar_toNat _ (Nat.mod_lt _ (by decide)),
      digitChar_toNat _ (Nat.mod_lt _ (by decide)), digitChar_toNat _ (Nat.mod_lt _ (by decide)),
      digitChar_toNat _ (Nat.mod_lt _ (by decide)), digitChar_toNat _ (Nat.mod_lt _ (by decide))]
    omega
  refine ⟨?_, ?_, hv, ?_, ?_, ?_, rfl⟩
  · show (Nat.toDigits 10 (100000 + n)).length = 6
    rw [hd]; rfl
  · intro c hc
    rcases toDigitsCore_mem _ _ _ c hc with h1 | ⟨k, hk, rfl⟩
    · cases h1
    · exact digitChar_isDigit k hk
  · rw [hv]; omega
  · rw [hv]; omega
  · show (Nat.toDigits 10 (100000 + n)).head? ≠ some '0'
    rw [hd]
    intro h0
    have h1 : Nat.digitChar ((100000 + n) / 100000 % 10) = '0' := by simpa using h0
    have h2 := digitChar_toNat ((100000 + n) / 100000 % 10) (Nat.mod_lt _ (by decide))
    rw [h1] at h2
    have h3 : ('0' : Char).toNat = 48 := by decide
    omega

/-- Witness of C6: the draw 382913 gives the code 482913. -/
theorem generateOTP_six_digits_witness :
    ∃ code : String, generateOTP (.ok 382913) = .ok code
      ∧ code.length = 6
      ∧ (∀ c ∈ code.data, c.isDigit = true)
      ∧ decimalValue code = 100000 + 382913
      ∧ 100000 ≤ decimalValue code ∧ decimalValue code ≤ 999999
      ∧ code.data.head? ≠ some '0'
      ∧ code.data = Nat.toDigits 10 (100000 + 382913) :=
  generateOTP_six_digits 382913 (by decide)

/-- C7: single use. If verifyOTP answers 200 Authenticated, the same request
repeated on the stores it left, at any time, answers 401 NoPendingOTP
("OTP not found") and changes nothing. -/
theorem verifyOTP_single_use (now1 now2 : Int) (s : Store) (u c : String)
    (h : (handleVerifyOTP now1 s (verifyOTP u c)).1 = some Authenticated) :
    handleVerifyOTP now2 (handleVerifyOTP now1 s (verifyOTP u c)).2 (verifyOTP u c)
      = (some NoPendingOTP, (handleVerifyOTP now1 s (verifyOTP u c)).2) := by
  have hu : trimSpace u ≠ "" := by
    intro hb
    rw [handleVerifyOTP_blank now1 s u c (Or.inl hb)] at h
    simp at h
  have hc : trimSpace c ≠ "" := by
    intro hb
    rw [handleVerifyOTP_blank now1 s u c (Or.inr hb)] at h
    simp at h
  rw [handleVerifyOTP_post now1 s u c hu hc] at h ⊢
  cases he : mapGet s.otpData (trimSpace u) with
  | none => simp [he] at h
  | some e =>
    simp only [he] at h ⊢
    by_cases hexp : now1 > e.expiresAt
    · simp [hexp] at h
    · by_cases hcode : trimSpace c = e.code
      · simp only [hexp, hcode, if_false, ne_eq, not_true_eq_false]
        rw [handleVerifyOTP_post now2 _ u c hu hc]
        simp only [mapGet_mapDelete_self]
      · simp [hexp, hcode] at h

/-- Witness of C7: alice verifies her code at time 50 and repeats at time 60. -/
theorem verifyOTP_single_use_witness :
    handleVerifyOTP 60
        (handleVerifyOTP 50 ⟨sampleStore.users, [("alice", ⟨"482913", 100⟩)]⟩
          (verifyOTP "alice" "482913")).2 (verifyOTP "alice" "482913")
      = (some NoPendingOTP,
          (handleVerifyOTP 50 ⟨sampleStore.users, [("alice", ⟨"482913", 100⟩)]⟩
            (verifyOTP "alice" "482913")).2) :=
  verifyOTP_single_use 50 60 ⟨sampleStore.users, [("alice", ⟨"482913", 100⟩)]⟩
    "alice" "482913" (by decide)

/-- C8: expiry and lazy reclamation. With an entry `e` pending for the username
(non-empty after trimming) and `now` strictly after `e.expiresAt`, verifyOTP
answers 401 OTPExpired for every code non-empty after trimming, matching or
not, removes the entry and keeps the user list; the same request repeated, at
any time, answers 401 NoPendingOTP. -/
theorem expired_verify_reclaims (now now2 : Int) (s : Store) (u c : String) (e : OTPEntry)
    (hu : trimSpace u ≠ "") (hc : trimSpace c ≠ "")
    (he : mapGet s.otpData (trimSpace u) = some e)
    (hexp : now > e.expiresAt) :
    (handleVerifyOTP now s (verifyOTP u c)).1 = some OTPExpired
      ∧ mapGet (handleVerifyOTP now s (verifyOTP u c)).2.otpData (trimSpace u) = none
      ∧ (handleVerifyOTP now s (verifyOTP u c)).2.users = s.users
      ∧ (handleVerifyOTP now2 (handleVerifyOTP now s (verifyOTP u c)).2 (verifyOTP u c)).1
          = some NoPendingOTP := by
  rw [handleVerifyOTP_post now s u c hu hc]
  simp only [he, hexp, if_true]
  refine ⟨trivial, mapGet_mapDelete_self _ _, trivial, ?_⟩
  rw [handleVerifyOTP_post now2 _ u c hu hc]
  simp only [mapGet_mapDelete_self]

/-- Witness of C8: the matching code arrives one nanosecond late. -/
theorem expired_verify_reclaims_witness :
    (handleVerifyOTP 101 ⟨sampleStore.users, [("alice", ⟨"482913", 100⟩)]⟩
        (verifyOTP "alice" "482913")).1 = some OTPExpired :=
  (expired_verify_reclaims 101 102 ⟨sampleStore.users, [("alice", ⟨"482913", 100⟩)]⟩
    "alice" "482913" ⟨"482913", 100⟩ (by decide) (by decide) (by decide) (by decide)).1

/-- C9, as stated, fails when the two logins draw the same number: both issue the
code 100005, and verifying the first login's code afterwards is accepted. -/
theorem stale_code_accepted_when_codes_coincide :
    (handleLogin sampleCompare (.ok 5) 0 sampleStore (login "alice" "Secr3t!")).1
        = some OTPPending
      ∧ (handleLogin sampleCompare (.ok 5) 1
          (handleLogin sampleCompare (.ok 5) 0 sampleStore (login "alice" "Secr3t!")).2
          (login "alice" "Secr3t!")).1 = some OTPPending
      ∧ mapGet (handleLogin sampleCompare (.ok 5) 0 sampleStore
          (login "alice" "Secr3t!")).2.otpData "alice" = some ⟨"100005", 0 + twoMinutes⟩
      ∧ (handleVerifyOTP 2
          (handleLogin sampleCompare (.ok 5) 1
            (handleLogin sampleCompare (.ok 5) 0 sampleStore (login "alice" "Secr3t!")).2
            (login "alice" "Secr3t!")).2
          (verifyOTP "alice" "100005")).1 = some Authenticated := by
  decide

/-- C9, amended: after two successive successful logins for one username that
issued codes `c1` then `c2`, the OTP store holds exactly one entry for the
username, carrying `c2` and the second login's expiry; verifying `c2` no later
than that expiry is accepted; and when `c1` differs from `c2`, verifying `c1` is
rejected at every time (InvalidOTP up to the expiry, OTPExpired after it). -/
theorem second_login_overwrites
    (cmp : String → String → GoError) (rnd1 rnd2 : Except String Nat) (now1 now2 t : Int)
    (s : Store) (u p1 p2 c1 c2 : String)
    (h1 : (handleLogin cmp rnd1 now1 s (login u p1)).1 = some OTPPending)
    (h2 : (handleLogin cmp rnd2 now2 (handleLogin cmp rnd1 now1 s (login u p1)).2
            (login u p2)).1 = some OTPPending)
    (hc1 : generateOTP rnd1 = .ok c1) (hc2 : generateOTP rnd2 = .ok c2) :
    mapGet (handleLogin cmp rnd2 now2 (handleLogin cmp rnd1 now1 s (login u p1)).2
        (login u p2)).2.otpData (trimSpace u) = some ⟨c2, now2 + twoMinutes⟩
      ∧ mapCount (handleLogin cmp rnd2 now2 (handleLogin cmp rnd1 now1 s (login u p1)).2
          (login u p2)).2.otpData (trimSpace u) = 1
      ∧ (t ≤ now2 + twoMinutes →
          (handleVerifyOTP t
            (handleLogin cmp rnd2 now2 (handleLogin cmp rnd1 now1 s (login u p1)).2
              (login u p2)).2 (verifyOTP u c2)).1 = some Authenticated)
      ∧ (c1 ≠ c2 →
          (handleVerifyOTP t
            (handleLogin cmp rnd2 now2 (handleLogin cmp rnd1 now1 s (login u p1)).2
              (login u p2)).2 (verifyOTP u c1)).1
            = some (if t > now2 + twoMinutes then OTPExpired else InvalidOTP)) := by
  obtain ⟨hu, a, ha, e1⟩ := login_OTPPending_inv cmp rnd1 now1 s u p1 h1
  obtain ⟨_, b, hb, e2⟩ := login_OTPPending_inv cmp rnd2 now2 _ u p2 h2
  have hb2 : b = c2 := by rw [hc2] at hb; exact (Except.ok.inj hb).symm
  subst hb2
  obtain ⟨t1, n1⟩ := generated_code_trim rnd1 c1 hc1
  obtain ⟨t2, n2⟩ := generated_code_trim rnd2 b hc2
  rw [e2]
  refine ⟨mapGet_mapPut_self _ _ _, mapCount_mapPut_self _ _ _, ?_, ?_⟩
  · intro ht
    rw [handleVerifyOTP_post t _ u b hu (by rw [t2]; exact n2)]
    simp only [mapGet_mapPut_self, t2]
    have : ¬ t > now2 + twoMinutes := by omega
    simp [this]
  · intro hne
    rw [handleVerifyOTP_post t _ u c1 hu (by rw [t1]; exact n1)]
    simp only [mapGet_mapPut_self, t1]
    by_cases hexp : t > now2 + twoMinutes
    · simp [hexp]
    · simp [hexp, hne]

/-- Witness of C9 amended: alice logs in at times 0 and 1 with draws 5 and 6; the
store then holds the second code, and the first is rejected at time 2. -/
theorem second_login_overwrites_witness :
    mapGet (handleLogin sampleCompare (.ok 6) 1
        (handleLogin sampleCompare (.ok 5) 0 sampleStore (login "alice" "Secr3t!")).2
        (login "alice" "Secr3t!")).2.otpData (trimSpace "alice")
        = some ⟨"100006", 1 + twoMinutes⟩
      ∧ (handleVerifyOTP 2
          (handleLogin sampleCompare (.ok 6) 1
            (handleLogin sampleCompare (.ok 5) 0 sampleStore (login "alice" "Secr3t!")).2
            (login "alice" "Secr3t!")).2 (verifyOTP "alice" "100005")).1
          = some (if 2 > 1 + twoMinutes then OTPExpired else InvalidOTP) :=
  ⟨(second_login_overwrites sampleCompare (.ok 5) (.ok 6) 0 1 2 sampleStore
      "alice" "Secr3t!" "Secr3t!" "100005" "100006" (by decide) (by decide) rfl rfl).1,
    (second_login_overwrites sampleCompare (.ok 5) (.ok 6) 0 1 2 sampleStore
      "alice" "Secr3t!" "Secr3t!" "100005" "100006" (by decide) (by decide) rfl rfl).2.2.2
      (by decide)⟩

/-- C10: wrong-code leniency. With an entry `e` pending for the username (non-empty
after trimming), a verifyOTP no later than `e.expiresAt` whose code is non-empty
after trimming and differs from the stored code answers 401 InvalidOTP and
leaves the stores unchanged; so after any finite run of such attempts the stores
are still the same, and a verifyOTP with the stored code no later than
`e.expiresAt` answers 200 Authenticated. -/
theorem wrong_code_keeps_entry
    (s : Store) (u : String) (e : OTPEntry) (c : String) (now : Int)
    (attempts : List (String × Int)) (c' : String) (now' : Int)
    (hu : trimSpace u ≠ "")
    (he : mapGet s.otpData (trimSpace u) = some e)
    (hc : trimSpace c ≠ "") (hne : trimSpace c ≠ e.code) (hnow : now ≤ e.expiresAt)
    (hall : ∀ a ∈ attempts, trimSpace a.1 ≠ "" ∧ trimSpace a.1 ≠ e.code ∧ a.2 ≤ e.expiresAt)
    (hc' : trimSpace c' ≠ "") (heq : trimSpace c' = e.code) (hnow' : now' ≤ e.expiresAt) :
    handleVerifyOTP now s (verifyOTP u c) = (some InvalidOTP, s)
      ∧ verifyAttempts s u attempts = s
      ∧ (handleVerifyOTP now' (verifyAttempts s u attempts) (verifyOTP u c')).1
          = some Authenticated := by
  have single : ∀ (x : String) (t : Int), trimSpace x ≠ "" → trimSpace x ≠ e.code →
      t ≤ e.expiresAt → handleVerifyOTP t s (verifyOTP u x) = (some InvalidOTP, s) := by
    intro x t hx hxe ht
    rw [handleVerifyOTP_post t s u x hu hx]
    have : ¬ t > e.expiresAt := by omega
    simp [he, this, hxe]
  have hfold : verifyAttempts s u attempts = s := by
    unfold verifyAttempts
    induction attempts with
    | nil => rfl
    | cons a rest ih =>
      obtain ⟨q1, q2, q3⟩ := hall a (List.mem_cons_self a rest)
      rw [List.foldl_cons, single a.1 a.2 q1 q2 q3]
      exact ih (fun b hb => hall b (List.mem_cons_of_mem a hb))
  refine ⟨single c now hc hne hnow, hfold, ?_⟩
  rw [hfold, handleVerifyOTP_post now' s u c' hu hc']
  have : ¬ now' > e.expiresAt := by omega
  simp [he, this, heq]

/-- Witness of C10: three wrong guesses, the last at the instant of expiry, then the
right code at that same instant. -/
theorem wrong_code_keeps_entry_witness :
    (handleVerifyOTP 100
        (verifyAttempts ⟨sampleStore.users, [("alice", ⟨"482913", 100⟩)]⟩ "alice"
          [("111111", 10), ("0482913", 20), ("482 913", 100)])
        (verifyOTP "alice" "482913")).1 = some Authenticated :=
  (wrong_code_keeps_entry ⟨sampleStore.users, [("alice", ⟨"482913", 100⟩)]⟩ "alice"
    ⟨"482913", 100⟩ "482914" 99 [("111111", 10), ("0482913", 20), ("482 913", 100)]
    "482913" 100 (by decide) (by decide) (by decide) (by decide) (by decide)
    (by decide) (by decide) (by decide) (by decide)).2.2

/-! ## The step model against the handlers -/

theorem task_register_alone (gen : String → Except String String) (s : Store)
    (r : HttpRequest RegisterRequest) :
    (Task.register gen r).step s = (.done (handleRegister gen s r).1, (handleRegister gen s r).2) :=
  rfl

theorem task_login_alone (cmp : String → String → GoError) (rnd : Except String Nat)
    (now : Int) (s : Store) (r : HttpRequest LoginRequest) :
    (((Task.login cmp rnd now r).step s).1.step ((Task.login cmp rnd now r).step s).2)
      = (.done (handleLogin cmp rnd now s r).1, (handleLogin cmp rnd now s r).2) := by
  show (loginLookup cmp rnd now s r).step s = _
  unfold loginLookup handleLogin
  by_cases h1 : r.method = "OPTIONS"
  · simp [h1, Task.step]
  · by_cases h2 : r.method = "POST"
    · cases hb : r.body with
      | none => simp [h1, h2, Task.step]
      | some req =>
        by_cases h3 : trimSpace req.username = "" ∨ trimSpace req.password = ""
        · simp [h1, h2, h3, Task.step]
        · cases hf : findUser s.users (trimSpace req.username) with
          | none => simp [h1, h2, h3, hf, Task.step]
          | some usr =>
            cases hc : cmp usr.passwordHash (trimSpace req.password) with
            | some e => simp [h1, h2, h3, hf, hc, Task.step]
            | none =>
              cases hg : generateOTP rnd with
              | error e => simp [h1, h2, h3, hf, hc, hg, Task.step]
              | ok otp => simp [h1, h2, h3, hf, hc, hg, Task.step]
    · simp [h1, h2, Task.step]

theorem task_verify_alone (now : Int) (s : Store) (r : HttpRequest VerifyOTPRequest) :
    (((Task.verify now r).step s).1.step ((Task.verify now r).step s).2)
      = (.done (handleVerifyOTP now s r).1, (handleVerifyOTP now s r).2) := by
  show (verifyLookup now s r).step s = _
  unfold verifyLookup handleVerifyOTP
  by_cases h1 : r.method = "OPTIONS"
  · simp [h1, Task.step]
  · by_cases h2 : r.method = "POST"
    · cases hb : r.body with
      | none => simp [h1, h2, Task.step]
      | some req =>
        by_cases h3 : trimSpace req.username = "" ∨ trimSpace req.otp = ""
        · simp [h1, h2, h3, Task.step]
        · cases hf : mapGet s.otpData (trimSpace req.username) with
          | none => simp [h1, h2, h3, hf, Task.step]
          | some e =>
            by_cases h4 : now > e.expiresAt
            · simp [h1, h2, h3, hf, h4, Task.step]
            · by_cases h5 : trimSpace req.otp = e.code
              · simp only [h1, h2, h3, hf, h4, if_false, ne_eq, not_true_eq_false]
                simp [h5, Task.step]
              · simp [h1, h2, h3, hf, h4, h5, Task.step]
    · simp [h1, h2, Task.step]

/-! ## What each handler can do to the stores -/

theorem handleRegister_cases (gen : String → Except String String) (s : Store)
    (r : HttpRequest RegisterRequest) :
    (handleRegister gen s r).2 = s ∨
      ∃ req h, r.body = some req ∧ trimSpace req.username ≠ ""
        ∧ findUser s.users (trimSpace req.username) = none
        ∧ gen (trimSpace req.password) = .ok h
        ∧ handleRegister gen s r
            = (some Created, ⟨s.users ++ [⟨trimSpace req.username, h⟩], s.otpData⟩) := by
  unfold handleRegister
  by_cases h1 : r.method = "OPTIONS"
  · simp [h1]
  · by_cases h2 : r.method = "POST"
    · cases hb : r.body with
      | none => simp [h1, h2]
      | some req =>
        by_cases h3 : trimSpace req.username = "" ∨ trimSpace req.password = ""
        · simp [h1, h2, h3]
        · cases hf : findUser s.users (trimSpace req.username) with
          | some usr => simp [h1, h2, h3, hf]
          | none =>
            cases hg : gen (trimSpace req.password) with
            | error e => simp [h1, h2, h3, hf, hg]
            | ok h =>
              refine Or.inr ⟨req, h, rfl, (not_or.mp h3).1, hf, hg, ?_⟩
              simp [h1, h2, h3, hf, hg]
    · simp [h1, h2]

theorem handleLogin_cases (cmp : String → String → GoError) (rnd : Except String Nat)
    (now : Int) (s : Store) (r : HttpRequest LoginRequest) :
    (handleLogin cmp rnd now s r).2 = s ∨
      ∃ req usr otp, r.body = some req ∧ trimSpace req.username ≠ ""
        ∧ findUser s.users (trimSpace req.username) = some usr
        ∧ generateOTP rnd = .ok otp
        ∧ handleLogin cmp rnd now s r
            = (some OTPPending,
                ⟨s.users, mapPut s.otpData (trimSpace req.username) ⟨otp, now + twoMinutes⟩⟩) := by
  unfold handleLogin
  by_cases h1 : r.method = "OPTIONS"
  · simp [h1]
  · by_cases h2 : r.method = "POST"
    · cases hb : r.body with
      | none => simp [h1, h2]
      | some req =>
        by_cases h3 : trimSpace req.username = "" ∨ trimSpace req.password = ""
        · simp [h1, h2, h3]
        · cases hf : findUser s.users (trimSpace req.username) with
          | none => simp [h1, h2, h3, hf]
          | some usr =>
            cases hc : cmp usr.passwordHash (trimSpace req.password) with
            | some e => simp [h1, h2, h3, hf, hc]
            | none =>
              cases hg : generateOTP rnd with
              | error e => simp [h1, h2, h3, hf, hc, hg]
              | ok otp =>
                refine Or.inr ⟨req, usr, otp, rfl, (not_or.mp h3).1, hf, rfl, ?_⟩
                simp [h1, h2, h3, hf, hc, hg]
    · simp [h1, h2]

theorem handleVerifyOTP_cases (now : Int) (s : Store) (r : HttpRequest VerifyOTPRequest) :
    (handleVerifyOTP now s r).2 = s ∨
      ∃ req, r.body = some req
        ∧ (handleVerifyOTP now s r).2
            = ⟨s.users, mapDelete s.otpData (trimSpace req.username)⟩ := by
  unfold handleVerifyOTP
  by_cases h1 : r.method = "OPTIONS"
  · simp [h1]
  · by_cases h2 : r.method = "POST"
    · cases hb : r.body with
      | none => simp [h1, h2]
      | some req =>
        by_cases h3 : trimSpace req.username = "" ∨ trimSpace req.otp = ""
        · simp [h1, h2, h3]
        · cases hf : mapGet s.otpData (trimSpace req.username) with
          | none => simp [h1, h2, h3, hf]
          | some e =>
            by_cases h4 : now > e.expiresAt
            · exact Or.inr ⟨req, rfl, by simp [h1, h2, h3, hf, h4]⟩
            · by_cases h5 : trimSpace req.otp = e.code
              · refine Or.inr ⟨req, rfl, ?_⟩
                simp only [h1, h2, h3, hf, h4, if_false, ne_eq, not_true_eq_false]
                simp [h5]
              · simp [h1, h2, h3, hf, h4, h5]
    · simp [h1, h2]

theorem mapGet_mapPut_of_ne (m : List (String × OTPEntry)) (k k' : String) (v : OTPEntry)
    (h : k' ≠ k) : mapGet (mapPut m k v) k' = mapGet m k' := by
  have h2 : ¬ k = k' := fun e => h e.symm
  simp only [mapPut, mapGet, h2, if_false]
  exact mapGet_mapDelete_of_ne m k k' h

/-- C11: input validation. For register, login and verifyOTP alike and for every
store: when one of the two request fields is empty after trimming (a missing
field decodes to the empty string, a blank one trims to it) the handler answers
400 InvalidInput and leaves the user list and the OTP store unchanged; when both
are non-empty after trimming it does not answer InvalidInput. -/
theorem blank_field_iff_InvalidInput
    (gen : String → Except String String) (cmp : String → String → GoError)
    (rnd : Except String Nat) (now : Int) (s : Store) (u x : String) :
    ((trimSpace u = "" ∨ trimSpace x = "") →
        handleRegister gen s (register u x) = (some InvalidInput, s)
        ∧ handleLogin cmp rnd now s (login u x) = (some InvalidInput, s)
        ∧ handleVerifyOTP now s (verifyOTP u x) = (some InvalidInputOTP, s))
      ∧ (trimSpace u ≠ "" → trimSpace x ≠ "" →
        (handleRegister gen s (register u x)).1 ≠ some InvalidInput
        ∧ (handleLogin cmp rnd now s (login u x)).1 ≠ some InvalidInput
        ∧ (handleVerifyOTP now s (verifyOTP u x)).1 ≠ some InvalidInputOTP) := by
  refine ⟨fun h => ⟨handleRegister_blank gen s u x h, handleLogin_blank cmp rnd now s u x h,
    handleVerifyOTP_blank now s u x h⟩, fun hu hx => ⟨?_, ?_, ?_⟩⟩
  · rw [handleRegister_post gen s u x hu hx]
    cases hf : findUser s.users (trimSpace u) with
    | some usr => simp
    | none =>
      cases hg : gen (trimSpace x) with
      | error e => simp
      | ok h => simp
  · rw [handleLogin_post cmp rnd now s u x hu hx]
    cases hf : findUser s.users (trimSpace u) with
    | none => simp
    | some usr =>
      cases hc : cmp usr.passwordHash (trimSpace x) with
      | some e => simp [hc]
      | none =>
        cases hg : generateOTP rnd with
        | error e => simp [hc]
        | ok otp => simp [hc]
  · rw [handleVerifyOTP_post now s u x hu hx]
    cases hf : mapGet s.otpData (trimSpace u) with
    | none => simp
    | some e =>
      by_cases h4 : now > e.expiresAt
      · simp [h4]
      · by_cases h5 : trimSpace x = e.code
        · simp [h4, h5]
        · simp [h4, h5]

/-- Witness of C11: the username field is missing and the other field is blank. -/
theorem blank_field_iff_InvalidInput_witness :
    handleRegister sampleGenerate sampleStore (register "" " \t ") = (some InvalidInput, sampleStore)
      ∧ handleLogin sampleCompare (.ok 0) 0 sampleStore (login "" " \t ")
          = (some InvalidInput, sampleStore)
      ∧ handleVerifyOTP 0 sampleStore (verifyOTP "" " \t ") = (some InvalidInputOTP, sampleStore) :=
  (blank_field_iff_InvalidInput sampleGenerate sampleCompare (.ok 0) 0 sampleStore "" " \t ").1
    (Or.inl (by decide))

/-- C13: user records are immutable. For every store and every request, the user
list before the request is a prefix of the user list after it; login and
verifyOTP leave the user list exactly as it was, and register lengthens it by
at most one record. -/
theorem user_records_immutable
    (gen : String → Except String String) (cmp : String → String → GoError)
    (rnd : Except String Nat) (now : Int) (s : Store)
    (rr : HttpRequest RegisterRequest) (rl : HttpRequest LoginRequest)
    (rv : HttpRequest VerifyOTPRequest) :
    (s.users <+: (handleRegister gen s rr).2.users
        ∧ (handleRegister gen s rr).2.users.length ≤ s.users.length + 1)
      ∧ (handleLogin cmp rnd now s rl).2.users = s.users
      ∧ (handleVerifyOTP now s rv).2.users = s.users := by
  refine ⟨?_, ?_, ?_⟩
  · rcases handleRegister_cases gen s rr with h | ⟨req, h, _, _, _, _, e⟩
    · rw [h]; exact ⟨List.prefix_refl _, Nat.le_succ _⟩
    · rw [e]; exact ⟨List.prefix_append _ _, by simp⟩
  · rcases handleLogin_cases cmp rnd now s rl with h | ⟨req, usr, otp, _, _, _, _, e⟩
    · rw [h]
    · rw [e]
  · rcases handleVerifyOTP_cases now s rv with h | ⟨req, _, e⟩
    · rw [h]
    · rw [e]

/-- C14: internal failures are atomic, for every store. When the hash computation
of a register fails, the stores are left unchanged, no user record being
inserted, and a register that reaches the computation (fields non-empty after
trimming, username not yet registered) answers 500 InternalError. When OTP
generation fails in a login (random source error), the stores are left
unchanged, a login that reaches the generation (fields non-empty after trimming,
user found, password accepted) answers 500, and a code pending for that user is
still accepted up to its expiry. -/
theorem internal_failures_atomic
    (gen : String → Except String String) (cmp : String → String → GoError)
    (rnd : Except String Nat) (now : Int) (s : Store) (ur pr ul pl e1 e2 : String) (usr : User) :
    (gen (trimSpace pr) = .error e1 →
        (handleRegister gen s (register ur pr)).2 = s
        ∧ (trimSpace ur ≠ "" → trimSpace pr ≠ "" → findUser s.users (trimSpace ur) = none →
            handleRegister gen s (register ur pr) = (some InternalErrorHash, s)))
      ∧ (generateOTP rnd = .error e2 →
        (handleLogin cmp rnd now s (login ul pl)).2 = s
        ∧ (trimSpace ul ≠ "" → trimSpace pl ≠ "" →
            findUser s.users (trimSpace ul) = some usr →
            cmp usr.passwordHash (trimSpace pl) = none →
            handleLogin cmp rnd now s (login ul pl) = (some InternalErrorOTP, s))
        ∧ (∀ (entry : OTPEntry) (c : String) (t : Int), trimSpace ul ≠ "" →
            mapGet s.otpData (trimSpace ul) = some entry →
            trimSpace c ≠ "" → trimSpace c = entry.code → t ≤ entry.expiresAt →
            (handleVerifyOTP t (handleLogin cmp rnd now s (login ul pl)).2
              (verifyOTP ul c)).1 = some Authenticated)) := by
  constructor
  · intro hgen
    constructor
    · rcases handleRegister_cases gen s (register ur pr) with h | ⟨req, h, hb, _, _, hg, _⟩
      · exact h
      · have hr : req = ⟨ur, pr⟩ := (Option.some.inj hb).symm
        subst hr
        rw [hgen] at hg
        cases hg
    · intro hur hpr hfr
      rw [handleRegister_post gen s ur pr hur hpr]
      simp only [hfr, hgen]
  · intro hrnd
    have keep : (handleLogin cmp rnd now s (login ul pl)).2 = s := by
      rcases handleLogin_cases cmp rnd now s (login ul pl) with h | ⟨req, u', otp, _, _, _, hg, _⟩
      · exact h
      · rw [hrnd] at hg
        cases hg
    refine ⟨keep, ?_, ?_⟩
    · intro hul hpl hfl hcmp
      rw [handleLogin_post cmp rnd now s ul pl hul hpl]
      simp only [hfl, hcmp, hrnd]
    · intro entry c t hul hpend hc hcode ht
      rw [keep, handleVerifyOTP_post t s ul c hul hc]
      have : ¬ t > entry.expiresAt := by omega
      simp [hpend, this, hcode]

/-- Witness of C14: hashing fails for bob on the empty stores; the random source
fails for alice with no code pending; and it fails for alice with the code
482913 pending, which is then verified. -/
theorem internal_failures_atomic_witness :
    handleRegister (fun _ => .error "short read") Store.init (register "bob" "pw")
        = (some InternalErrorHash, Store.init)
      ∧ handleLogin sampleCompare (.error "short read") 7 sampleStore (login "alice" "Secr3t!")
          = (some InternalErrorOTP, sampleStore)
      ∧ (handleVerifyOTP 8
          (handleLogin sampleCompare (.error "short read") 7
            ⟨sampleStore.users, [("alice", ⟨"482913", 100⟩)]⟩ (login "alice" "Secr3t!")).2
          (verifyOTP "alice" "482913")).1 = some Authenticated :=
  ⟨((internal_failures_atomic (fun _ => .error "short read") sampleCompare
        (.error "short read") 7 Store.init "bob" "pw" "alice" "Secr3t!"
        "short read" "short read" ⟨"alice", "$2a$10$Secr3t!"⟩).1 rfl).2
      (by decide) (by decide) (by decide),
    ((internal_failures_atomic (fun _ => .error "short read") sampleCompare
        (.error "short read") 7 sampleStore "bob" "pw" "alice" "Secr3t!"
        "short read" "short read" ⟨"alice", "$2a$10$Secr3t!"⟩).2 rfl).2.1
      (by decide) (by decide) (by decide) (by decide),
    ((internal_failures_atomic (fun _ => .error "short read") sampleCompare
        (.error "short read") 7 ⟨sampleStore.users, [("alice", ⟨"482913", 100⟩)]⟩
        "bob" "pw" "alice" "Secr3t!"
        "short read" "short read" ⟨"alice", "$2a$10$Secr3t!"⟩).2 rfl).2.2
      ⟨"482913", 100⟩ "482913" 8 (by decide) (by decide) (by decide) (by decide) (by decide)⟩

/-- C18: passwords are compared after trimming. For passwords `p` and `p'` equal
after trimming and non-empty after trimming: a register answering 201 Created
stored the hash of the trimmed `p`; on the stores it left, login with `p'` has
the same outcome as login with `p`; and when the comparison accepts the trimmed
password against that hash and OTP generation succeeds, that outcome is 200
OTPPending. -/
theorem password_trimmed_before_use
    (gen : String → Except String String) (cmp : String → String → GoError)
    (rnd : Except String Nat) (code : String) (now : Int) (s : Store) (u p p' : String)
    (hp : trimSpace p ≠ "") (heq : trimSpace p' = trimSpace p)
    (hreg : (handleRegister gen s (register u p)).1 = some Created)
    (hcmp : ∀ h, gen (trimSpace p) = .ok h → cmp h (trimSpace p) = none)
    (hotp : generateOTP rnd = .ok code) :
    (∃ h, gen (trimSpace p) = .ok h
        ∧ (handleRegister gen s (register u p)).2.users = s.users ++ [⟨trimSpace u, h⟩])
      ∧ handleLogin cmp rnd now (handleRegister gen s (register u p)).2 (login u p')
          = handleLogin cmp rnd now (handleRegister gen s (register u p)).2 (login u p)
      ∧ (handleLogin cmp rnd now (handleRegister gen s (register u p)).2 (login u p')).1
          = some OTPPending := by
  have hu : trimSpace u ≠ "" := by
    intro hb
    rw [handleRegister_blank gen s u p (Or.inl hb)] at hreg
    simp at hreg
  have hp' : trimSpace p' ≠ "" := by rw [heq]; exact hp
  have same : ∀ st, handleLogin cmp rnd now st (login u p') = handleLogin cmp rnd now st (login u p) := by
    intro st
    rw [handleLogin_post cmp rnd now st u p' hu hp', handleLogin_post cmp rnd now st u p hu hp, heq]
  rw [same]
  rw [handleRegister_post gen s u p hu hp] at hreg ⊢
  cases hf : findUser s.users (trimSpace u) with
  | some usr => simp [hf] at hreg
  | none =>
    cases hg : gen (trimSpace p) with
    | error e => simp [hf, hg] at hreg
    | ok hash =>
      have hfind := findUser_append_of_none s.users (trimSpace u) hash hf
      refine ⟨⟨hash, rfl, rfl⟩, rfl, ?_⟩
      simp only []
      rw [handleLogin_post cmp rnd now _ u p hu hp]
      simp only [hfind, hcmp hash hg, hotp]

/-- Witness of C18: alice registers with padding around the password and logs in
without it. -/
theorem password_trimmed_before_use_witness :
    (handleLogin sampleCompare (.ok 382913) 0
        (handleRegister sampleGenerate Store.init (register "alice" "  Secr3t!\n")).2
        (login "alice" "Secr3t!")).1 = some OTPPending :=
  (password_trimmed_before_use sampleGenerate sampleCompare (.ok 382913) "482913" 0
    Store.init "alice" "  Secr3t!\n" "Secr3t!" (by decide) (by decide) (by decide)
    (by
      intro h hh
      have ht : trimSpace "  Secr3t!\n" = "Secr3t!" := by decide
      rw [ht] at hh ⊢
      simp only [sampleGenerate, Except.ok.injEq] at hh
      subst hh
      decide)
    rfl).2.2

/-- C19: per-user isolation of the OTP store. For every store, every login or
verifyOTP request for a username `u` and every username `v` other than the
trimmed `u`, the OTP entry of `v` (presence, code and expiry) is the same after
the request as before; and no register request changes the OTP store at all. -/
theorem otp_store_isolation
    (gen : String → Except String String) (cmp : String → String → GoError)
    (rnd : Except String Nat) (now : Int) (s : Store) (u x v : String)
    (rr : HttpRequest RegisterRequest) (hv : v ≠ trimSpace u) :
    mapGet (handleLogin cmp rnd now s (login u x)).2.otpData v = mapGet s.otpData v
      ∧ mapGet (handleVerifyOTP now s (verifyOTP u x)).2.otpData v = mapGet s.otpData v
      ∧ (handleRegister gen s rr).2.otpData = s.otpData := by
  refine ⟨?_, ?_, ?_⟩
  · rcases handleLogin_cases cmp rnd now s (login u x) with h | ⟨req, usr, otp, hb, _, _, _, e⟩
    · rw [h]
    · have hr : req = ⟨u, x⟩ := (Option.some.inj hb).symm
      subst hr
      rw [e]
      exact mapGet_mapPut_of_ne _ _ _ _ hv
  · rcases handleVerifyOTP_cases now s (verifyOTP u x) with h | ⟨req, hb, e⟩
    · rw [h]
    · have hr : req = ⟨u, x⟩ := (Option.some.inj hb).symm
      subst hr
      rw [e]
      exact mapGet_mapDelete_of_ne _ _ _ hv
  · rcases handleRegister_cases gen s rr with h | ⟨req, h, _, _, _, _, e⟩
    · rw [h]
    · rw [e]

/-- Witness of C19: alice logs in and verifies while bob has a code pending. -/
theorem otp_store_isolation_witness :
    mapGet (handleLogin sampleCompare (.ok 5) 0
        ⟨sampleStore.users, [("bob", ⟨"482913", 100⟩)]⟩ (login "alice" "Secr3t!")).2.otpData "bob"
      = mapGet [("bob", ⟨"482913", 100⟩)] "bob" :=
  (otp_store_isolation sampleGenerate sampleCompare (.ok 5) 0
    ⟨sampleStore.users, [("bob", ⟨"482913", 100⟩)]⟩ "alice" "Secr3t!" "bob"
    (register "carol" "pw") (by decide)).1

/-! ## Trimming -/

theorem dropWhile_head_false (p : Char → Bool) (l : List Char) (c : Char)
    (h : (l.dropWhile p).head? = some c) : p c = false := by
  have := List.head?_dropWhile_not p l
  rw [h] at this
  exact this

theorem dropWhile_of_head_false (p : Char → Bool) (l : List Char)
    (h : ∀ c, l.head? = some c → p c = false) : l.dropWhile p = l := by
  cases l with
  | nil => rfl
  | cons a rest => simp [List.dropWhile, h a rfl]

theorem trimSpace_last (x : String) (c : Char)
    (h : (trimSpace x).data.getLast? = some c) : isSpace c = false := by
  unfold trimSpace at h
  rw [List.getLast?_reverse] at h
  exact dropWhile_head_false isSpace _ c h

theorem trimSpace_head (x : String) (c : Char)
    (h : (trimSpace x).data.head? = some c) : isSpace c = false := by
  unfold trimSpace at h
  have hp : ((x.data.dropWhile isSpace).reverse.dropWhile isSpace).reverse
      <+: x.data.dropWhile isSpace := by
    have := List.reverse_prefix.mpr (List.dropWhile_suffix isSpace (l := (x.data.dropWhile isSpace).reverse))
    rwa [List.reverse_reverse] at this
  obtain ⟨t, ht⟩ := hp
  apply dropWhile_head_false isSpace x.data c
  rw [← ht]
  simp only [] at h
  cases hb : ((x.data.dropWhile isSpace).reverse.dropWhile isSpace).reverse with
  | nil => rw [hb] at h; cases h
  | cons a rest => rw [hb] at h; simpa using h

theorem trimSpace_idem (x : String) : trimSpace (trimSpace x) = trimSpace x := by
  have h1 := trimSpace_head x
  have h2 := trimSpace_last x
  generalize trimSpace x = y at h1 h2
  unfold trimSpace
  rw [dropWhile_of_head_false isSpace y.data h1,
    dropWhile_of_head_false isSpace y.data.reverse (by
      intro c hc
      rw [List.head?_reverse] at hc
      exact h2 c hc),
    List.reverse_reverse]

/-! ## Digits -/

theorem isDigit_iff (c : Char) : c.isDigit = true ↔ 48 ≤ c.toNat ∧ c.toNat ≤ 57 := by
  simp [Char.isDigit, Char.toNat, UInt32.le_def, Fin.le_def]
  rfl

theorem digitChar_of_isDigit (c : Char) (h : c.isDigit = true) :
    Nat.digitChar (c.toNat - 48) = c := by
  obtain ⟨h1, h2⟩ := (isDigit_iff c).mp h
  have hc : c = Char.ofNat c.toNat := (Char.ofNat_toNat c).symm
  generalize c.toNat = k at h1 h2 hc
  subst hc
  interval_cases k <;> decide

/-! ## Lookups against membership -/

theorem findUser_none_iff (us : List User) (k : String) :
    findUser us k = none ↔ ∀ r ∈ us, r.username ≠ k := by
  induction us with
  | nil => simp [findUser]
  | cons u rest ih =>
    by_cases h : u.username = k
    · simp [findUser, h]
    · simp [findUser, h, ih]

theorem findUser_some_mem (us : List User) (k : String) (usr : User)
    (h : findUser us k = some usr) : ∃ r ∈ us, r.username = k := by
  by_contra hne
  have : findUser us k = none :=
    (findUser_none_iff us k).mpr (fun r hr e => hne ⟨r, hr, e⟩)
  rw [this] at h
  cases h

theorem mapDelete_sublist (m : List (String × OTPEntry)) (k : String) :
    List.Sublist (mapDelete m k) m :=
  List.filter_sublist m

theorem mapDelete_key_ne (m : List (String × OTPEntry)) (k : String) (kv : String × OTPEntry)
    (h : kv ∈ mapDelete m k) : kv.1 ≠ k := by
  have := (List.mem_filter.mp h).2
  simpa using this

theorem mapPut_keys_nodup (m : List (String × OTPEntry)) (k : String) (v : OTPEntry)
    (h : (m.map Prod.fst).Nodup) : ((mapPut m k v).map Prod.fst).Nodup := by
  unfold mapPut
  rw [List.map_cons, List.nodup_cons]
  constructor
  · intro hk
    obtain ⟨kv, hkv, e⟩ := List.mem_map.mp hk
    exact mapDelete_key_ne m k kv hkv e
  · exact h.sublist ((mapDelete_sublist m k).map Prod.fst)

theorem mapDelete_keys_nodup (m : List (String × OTPEntry)) (k : String)
    (h : (m.map Prod.fst).Nodup) : ((mapDelete m k).map Prod.fst).Nodup :=
  h.sublist ((mapDelete_sublist m k).map Prod.fst)

/-! ## Codes issued from a draw in range -/

theorem sixDigit_of_draw (n : Nat) (h : n < 900000) :
    SixDigitCode ⟨Nat.toDigits 10 (100000 + n)⟩
      ∧ decimalValue ⟨Nat.toDigits 10 (100000 + n)⟩ = 100000 + n := by
  have hd := toDigits_six (100000 + n) (by omega) (by omega)
  have hv : decimalValue ⟨Nat.toDigits 10 (100000 + n)⟩ = 100000 + n := by
    simp only [decimalValue, hd, List.foldl]
    rw [digitChar_toNat _ (Nat.mod_lt _ (by decide)), digitChar_toNat _ (Nat.mod_lt _ (by decide)),
      digitChar_toNat _ (Nat.mod_lt _ (by decide)), digitChar_toNat _ (Nat.mod_lt _ (by decide)),
      digitChar_toNat _ (Nat.mod_lt _ (by decide)), digitChar_toNat _ (Nat.mod_lt _ (by decide))]
    omega
  refine ⟨⟨?_, ?_, ?_, ?_⟩, hv⟩
  · show (Nat.toDigits 10 (100000 + n)).length = 6
    rw [hd]; rfl
  · intro c hc
    rcases toDigitsCore_mem _ _ _ c hc with h1 | ⟨k, hk, rfl⟩
    · cases h1
    · exact digitChar_isDigit k hk
  · rw [hv]; omega
  · rw [hv]; omega

theorem sixDigit_of_outcome (rnd : Draw) (code : String)
    (h : generateOTP rnd.outcome = .ok code) : SixDigitCode code := by
  cases rnd with
  | error e => simp [Draw.outcome, generateOTP] at h
  | ok n =>
    simp only [Draw.outcome] at h
    rw [generateOTP_ok n.val n.isLt] at h
    rw [← Except.ok.inj h]
    exact (sixDigit_of_draw n.val n.isLt).1

/-! ## Invariants of the stores -/

theorem users_inv_step (s : Store) (e : Event)
    (h1 : (s.users.map User.username).Nodup)
    (h2 : ∀ r ∈ s.users, r.username ≠ "" ∧ trimSpace r.username = r.username) :
    ((Event.apply s e).users.map User.username).Nodup
      ∧ ∀ r ∈ (Event.apply s e).users, r.username ≠ "" ∧ trimSpace r.username = r.username := by
  cases e with
  | register gen r =>
    rcases handleRegister_cases gen s r with h | ⟨req, hash, _, hne, hf, _, e⟩
    · simp only [Event.apply, h]; exact ⟨h1, h2⟩
    · simp only [Event.apply, e]
      constructor
      · rw [List.map_append, List.nodup_append]
        refine ⟨h1, by simp, ?_⟩
        intro a ha hb
        obtain ⟨r', hr', e'⟩ := List.mem_map.mp ha
        have : a = trimSpace req.username := by simpa using hb
        exact (findUser_none_iff _ _).mp hf r' hr' (e'.trans this)
      · intro r' hr'
        rcases List.mem_append.mp hr' with h | h
        · exact h2 r' h
        · have : r' = ⟨trimSpace req.username, hash⟩ := by simpa using h
          subst this
          exact ⟨hne, trimSpace_idem _⟩
  | login cmp rnd now r =>
    rcases handleLogin_cases cmp rnd.outcome now s r with h | ⟨req, usr, otp, _, _, _, _, e⟩
    · simp only [Event.apply, h]; exact ⟨h1, h2⟩
    · simp only [Event.apply, e]; exact ⟨h1, h2⟩
  | verifyOTP now r =>
    rcases handleVerifyOTP_cases now s r with h | ⟨req, _, e⟩
    · simp only [Event.apply, h]; exact ⟨h1, h2⟩
    · simp only [Event.apply, e]; exact ⟨h1, h2⟩

theorem users_inv_run (es : List Event) : ∀ (s : Store),
    (s.users.map User.username).Nodup →
    (∀ r ∈ s.users, r.username ≠ "" ∧ trimSpace r.username = r.username) →
    ((runEvents s es).users.map User.username).Nodup
      ∧ ∀ r ∈ (runEvents s es).users, r.username ≠ "" ∧ trimSpace r.username = r.username := by
  induction es with
  | nil => intro s h1 h2; exact ⟨h1, h2⟩
  | cons e rest ih =>
    intro s h1 h2
    obtain ⟨a, b⟩ := users_inv_step s e h1 h2
    exact ih (Event.apply s e) a b

theorem otp_inv_step (s : Store) (e : Event)
    (h1 : (s.otpData.map Prod.fst).Nodup)
    (h2 : ∀ kv ∈ s.otpData, (∃ r ∈ s.users, r.username = kv.1) ∧ SixDigitCode kv.2.code) :
    ((Event.apply s e).otpData.map Prod.fst).Nodup
      ∧ ∀ kv ∈ (Event.apply s e).otpData,
          (∃ r ∈ (Event.apply s e).users, r.username = kv.1) ∧ SixDigitCode kv.2.code := by
  cases e with
  | register gen r =>
    rcases handleRegister_cases gen s r with h | ⟨req, hash, _, _, _, _, e⟩
    · simp only [Event.apply, h]; exact ⟨h1, h2⟩
    · simp only [Event.apply, e]
      refine ⟨h1, fun kv hkv => ?_⟩
      obtain ⟨⟨r', hr', e'⟩, c⟩ := h2 kv hkv
      exact ⟨⟨r', List.mem_append_left _ hr', e'⟩, c⟩
  | login cmp rnd now r =>
    rcases handleLogin_cases cmp rnd.outcome now s r with h | ⟨req, usr, otp, _, _, hf, hg, e⟩
    · simp only [Event.apply, h]; exact ⟨h1, h2⟩
    · simp only [Event.apply, e]
      refine ⟨mapPut_keys_nodup _ _ _ h1, fun kv hkv => ?_⟩
      rcases List.mem_cons.mp hkv with h | h
      · subst h
        exact ⟨findUser_some_mem _ _ usr hf, sixDigit_of_outcome rnd otp hg⟩
      · exact h2 kv ((mapDelete_sublist _ _).subset h)
  | verifyOTP now r =>
    rcases handleVerifyOTP_cases now s r with h | ⟨req, _, e⟩
    · simp only [Event.apply, h]; exact ⟨h1, h2⟩
    · simp only [Event.apply, e]
      exact ⟨mapDelete_keys_nodup _ _ h1, fun kv hkv => h2 kv ((mapDelete_sublist _ _).subset hkv)⟩

theorem otp_inv_run (es : List Event) : ∀ (s : Store),
    (s.otpData.map Prod.fst).Nodup →
    (∀ kv ∈ s.otpData, (∃ r ∈ s.users, r.username = kv.1) ∧ SixDigitCode kv.2.code) →
    ((runEvents s es).otpData.map Prod.fst).Nodup
      ∧ ∀ kv ∈ (runEvents s es).otpData,
          (∃ r ∈ (runEvents s es).users, r.username = kv.1) ∧ SixDigitCode kv.2.code := by
  induction es with
  | nil => intro s h1 h2; exact ⟨h1, h2⟩
  | cons e rest ih =>
    intro s h1 h2
    obtain ⟨a, b⟩ := otp_inv_step s e h1 h2
    exact ih (Event.apply s e) a b

/-- C12: username uniqueness. In every state reached from the empty stores by a
finite sequence of register, login and verifyOTP requests, no two records of
the user list carry the same username, and every stored username is non-empty
and has no white space at either end (it is its own trimming, its first and
last characters are not white space). Usernames are compared exactly: after
registering "Alice" and then "alice" both are in the user list. -/
theorem usernames_unique_and_trimmed (es : List Event) :
    ((runEvents Store.init es).users.map User.username).Nodup
      ∧ (∀ r ∈ (runEvents Store.init es).users,
          r.username ≠ "" ∧ trimSpace r.username = r.username
          ∧ (∀ c, r.username.data.head? = some c → isSpace c = false)
          ∧ (∀ c, r.username.data.getLast? = some c → isSpace c = false))
      ∧ (runEvents Store.init
          [.register sampleGenerate (register "Alice" "pw"),
           .register sampleGenerate (register "alice" "pw")]).users.map User.username
          = ["Alice", "alice"] := by
  obtain ⟨a, b⟩ := users_inv_run es Store.init (by simp [Store.init]) (by simp [Store.init])
  refine ⟨a, fun r hr => ?_, by decide⟩
  obtain ⟨b1, b2⟩ := b r hr
  refine ⟨b1, b2, fun c hc => ?_, fun c hc => ?_⟩
  · rw [← b2] at hc; exact trimSpace_head _ c hc
  · rw [← b2] at hc; exact trimSpace_last _ c hc

/-- C17: generateOTP maps the draws one-to-one onto the six-digit codes. Two draws
below 900000 giving the same code are equal; every draw below 900000 gives a
six-digit code (six ASCII digits, value between 100000 and 999999); every
six-digit code is given by some draw below 900000; and the draw 899999 gives
999999. -/
theorem generateOTP_bijective :
    (∀ n m : Nat, n < 900000 → m < 900000 →
        generateOTP (.ok n) = generateOTP (.ok m) → n = m)
      ∧ (∀ n : Nat, n < 900000 → ∃ code, generateOTP (.ok n) = .ok code ∧ SixDigitCode code)
      ∧ (∀ code : String, SixDigitCode code →
          ∃ n : Nat, n < 900000 ∧ generateOTP (.ok n) = .ok code)
      ∧ generateOTP (.ok 899999) = .ok "999999" := by
  refine ⟨?_, ?_, ?_, rfl⟩
  · intro n m hn hm h
    rw [generateOTP_ok n hn, generateOTP_ok m hm] at h
    have e := Except.ok.inj h
    have vn := (sixDigit_of_draw n hn).2
    have vm := (sixDigit_of_draw m hm).2
    rw [e] at vn
    omega
  · intro n hn
    exact ⟨_, generateOTP_ok n hn, (sixDigit_of_draw n hn).1⟩
  · intro code ⟨hlen, hdig, hlo, hhi⟩
    obtain ⟨data⟩ := code
    have hlen' : data.length = 6 := hlen
    match data, hlen' with
    | [c1, c2, c3, c4, c5, c6], _ =>
      have d1 := (isDigit_iff c1).mp (hdig c1 (by simp))
      have d2 := (isDigit_iff c2).mp (hdig c2 (by simp))
      have d3 := (isDigit_iff c3).mp (hdig c3 (by simp))
      have d4 := (isDigit_iff c4).mp (hdig c4 (by simp))
      have d5 := (isDigit_iff c5).mp (hdig c5 (by simp))
      have d6 := (isDigit_iff c6).mp (hdig c6 (by simp))
      simp only [decimalValue, List.foldl] at hlo hhi
      generalize hv : 10 * (10 * (10 * (10 * (10 * (10 * 0 + (c1.toNat - 48)) + (c2.toNat - 48))
        + (c3.toNat - 48)) + (c4.toNat - 48)) + (c5.toNat - 48)) + (c6.toNat - 48) = v at hlo hhi
      refine ⟨v - 100000, by omega, ?_⟩
      rw [generateOTP_ok _ (by omega)]
      have e : 100000 + (v - 100000) = v := by omega
      rw [e, toDigits_six v hlo (by omega)]
      have q1 : v / 100000 % 10 = c1.toNat - 48 := by omega
      have q2 : v / 10000 % 10 = c2.toNat - 48 := by omega
      have q3 : v / 1000 % 10 = c3.toNat - 48 := by omega
      have q4 : v / 100 % 10 = c4.toNat - 48 := by omega
      have q5 : v / 10 % 10 = c5.toNat - 48 := by omega
      have q6 : v % 10 = c6.toNat - 48 := by omega
      rw [q1, q2, q3, q4, q5, q6,
        digitChar_of_isDigit c1 (hdig c1 (by simp)), digitChar_of_isDigit c2 (hdig c2 (by simp)),
        digitChar_of_isDigit c3 (hdig c3 (by simp)), digitChar_of_isDigit c4 (hdig c4 (by simp)),
        digitChar_of_isDigit c5 (hdig c5 (by simp)), digitChar_of_isDigit c6 (hdig c6 (by simp))]

/-- Witness of C17: the code 999999 is issued by a draw below 900000. -/
theorem generateOTP_bijective_witness :
    ∃ n : Nat, n < 900000 ∧ generateOTP (.ok n) = .ok "999999" :=
  generateOTP_bijective.2.2.1 "999999" (by decide)

/-- C20: OTP entries exist only for registered users. In every state reached from
the empty stores by a finite sequence of register, login and verifyOTP requests
(the random source delivering numbers below 900000), every key of the OTP store
is the username of a record of the user list, every stored code is a six-digit
string with value between 100000 and 999999, no key occurs twice, and the OTP
store holds no more entries than the user list has records. -/
theorem otp_entries_belong_to_users (es : List Event) :
    (∀ kv ∈ (runEvents Store.init es).otpData,
        (∃ r ∈ (runEvents Store.init es).users, r.username = kv.1) ∧ SixDigitCode kv.2.code)
      ∧ ((runEvents Store.init es).otpData.map Prod.fst).Nodup
      ∧ (runEvents Store.init es).otpData.length ≤ (runEvents Store.init es).users.length := by
  obtain ⟨a, b⟩ := otp_inv_run es Store.init (by simp [Store.init]) (by simp [Store.init])
  refine ⟨b, a, ?_⟩
  have hsub : (runEvents Store.init es).otpData.map Prod.fst
      ⊆ (runEvents Store.init es).users.map User.username := by
    intro k hk
    obtain ⟨kv, hkv, e⟩ := List.mem_map.mp hk
    obtain ⟨⟨r, hr, e'⟩, _⟩ := b kv hkv
    exact List.mem_map.mpr ⟨r, hr, e'.trans e⟩
  have := (List.subperm_of_subset a hsub).length_le
  simpa using this

/-! ## Register calls under an arbitrary interleaving -/

theorem userCount_zero_iff (us : List User) (k : String) :
    userCount us k = 0 ↔ findUser us k = none := by
  rw [findUser_none_iff]
  simp [userCount, List.filter_eq_nil_iff]

theorem userCount_append_one (us : List User) (k h : String) :
    userCount (us ++ [⟨k, h⟩]) k = userCount us k + 1 := by
  simp [userCount, List.filter_append]

theorem pendingRegister_step_fresh (name : String) (t : Task) (s : Store)
    (hname : name ≠ "") (ht : PendingRegister name t) (hs : findUser s.users name = none) :
    ∃ h, t.step s = (.done (some Created), ⟨s.users ++ [⟨name, h⟩], s.otpData⟩) := by
  obtain ⟨c, rfl, hu, hp, h, hg⟩ := ht
  refine ⟨h, ?_⟩
  have hu' : trimSpace c.username ≠ "" := by rw [hu]; exact hname
  show (Task.done (handleRegister c.gen s (register c.username c.password)).1,
    (handleRegister c.gen s (register c.username c.password)).2) = _
  rw [handleRegister_post c.gen s c.username c.password hu' hp]
  simp only [hu, hs, hg]

theorem pendingRegister_step_taken (name : String) (t : Task) (s : Store)
    (hname : name ≠ "") (ht : PendingRegister name t) (hs : findUser s.users name ≠ none) :
    t.step s = (.done (some UserExists), s) := by
  obtain ⟨c, rfl, hu, hp, h, hg⟩ := ht
  have hu' : trimSpace c.username ≠ "" := by rw [hu]; exact hname
  show (Task.done (handleRegister c.gen s (register c.username c.password)).1,
    (handleRegister c.gen s (register c.username c.password)).2) = _
  rw [handleRegister_post c.gen s c.username c.password hu' hp]
  cases hf : findUser s.users (trimSpace c.username) with
  | none => rw [hu] at hf; exact absurd hf hs
  | some usr => rfl

theorem pendingRegister_result (name : String) (t : Task) (ht : PendingRegister name t) :
    t.result = none := by
  obtain ⟨c, rfl, _⟩ := ht
  rfl

theorem pool_step_none (p : Pool) (i : Nat) (h : p.tasks[i]? = none) : p.step i = p := by
  simp [Pool.step, h]

theorem pool_step_some (p : Pool) (i : Nat) (t : Task) (h : p.tasks[i]? = some t) :
    p.step i = ⟨p.tasks.set i (t.step p.store).1, (t.step p.store).2⟩ := by
  simp [Pool.step, h]

theorem register_pool_step (name : String) (n : Nat) (hname : name ≠ "") (p : Pool) (i0 : Nat)
    (hlen : p.tasks.length = n) (hinv : RegisterRace name p) :
    (p.step i0).tasks.length = n ∧ RegisterRace name (p.step i0) := by
  cases hget : p.tasks[i0]? with
  | none => rw [pool_step_none p i0 hget]; exact ⟨hlen, hinv⟩
  | some t =>
    have hi0 : i0 < p.tasks.length := by
      by_contra hge
      rw [List.getElem?_eq_none (by omega)] at hget
      cases hget
    rw [pool_step_some p i0 t hget]
    refine ⟨by simpa using hlen, ?_⟩
    rcases hinv with ⟨hc, hall⟩ | ⟨hc, i, hi, hall⟩
    · obtain ⟨h, e⟩ := pendingRegister_step_fresh name t p.store hname (hall i0 t hget)
        ((userCount_zero_iff _ _).mp hc)
      rw [e]
      refine Or.inr ⟨by simp only [userCount_append_one, hc], i0, List.getElem?_set_self hi0, ?_⟩
      intro j t' hj ht'
      simp only [] at ht'
      rw [List.getElem?_set_ne (Ne.symm hj)] at ht'
      exact Or.inl (hall j t' ht')
    · have hfound : findUser p.store.users name ≠ none := by
        intro hn
        have := (userCount_zero_iff _ _).mpr hn
        omega
      by_cases hii : i0 = i
      · subst hii
        have ht : t = Task.done (some Created) := by
          rw [hget] at hi; exact Option.some.inj hi
        subst ht
        refine Or.inr ⟨hc, i0, List.getElem?_set_self hi0, ?_⟩
        intro j t' hj ht'
        simp only [Task.step] at ht'
        rw [List.getElem?_set_ne (Ne.symm hj)] at ht'
        exact hall j t' hj ht'
      · have e : t.step p.store = (Task.done (some UserExists), p.store) := by
          rcases hall i0 t hii hget with hp | hd
          · exact pendingRegister_step_taken name t p.store hname hp hfound
          · rw [hd]; rfl
        rw [e]
        refine Or.inr ⟨hc, i, ?_, ?_⟩
        · simp only []
          rw [List.getElem?_set_ne hii]; exact hi
        · intro j t' hj ht'
          simp only [] at ht'
          by_cases hji : j = i0
          · subst hji
            rw [List.getElem?_set_self hi0] at ht'
            exact Or.inr (Option.some.inj ht').symm
          · rw [List.getElem?_set_ne (Ne.symm hji)] at ht'
            exact hall j t' hj ht'

theorem register_pool_run (name : String) (n : Nat) (hname : name ≠ "") (schedule : List Nat) :
    ∀ p : Pool, p.tasks.length = n → RegisterRace name p →
      (p.run schedule).tasks.length = n ∧ RegisterRace name (p.run schedule) := by
  induction schedule with
  | nil => intro p hlen hinv; exact ⟨hlen, hinv⟩
  | cons i0 rest ih =>
    intro p hlen hinv
    obtain ⟨a, b⟩ := register_pool_step name n hname p i0 hlen hinv
    exact ih (p.step i0) a b

/-- C15, as stated, fails when one of the calls carries a blank field: of two
register calls for alice, the one whose password is a single space answers 400
InvalidInput, not UserExists, whichever call takes the lock first; and two calls
whose username is blank both answer InvalidInput, none Created. -/
theorem concurrent_register_blank_field :
    (Pool.run ⟨[RegisterCall.task ⟨sampleGenerate, "alice", "pw"⟩,
        RegisterCall.task ⟨sampleGenerate, "alice", " "⟩], Store.init⟩ [0, 1]).results
        = [some (some Created), some (some InvalidInput)]
      ∧ (Pool.run ⟨[RegisterCall.task ⟨sampleGenerate, "alice", "pw"⟩,
          RegisterCall.task ⟨sampleGenerate, "alice", " "⟩], Store.init⟩ [1, 0]).results
          = [some (some Created), some (some InvalidInput)]
      ∧ findUser Store.init.users (trimSpace " ") = none
      ∧ (Pool.run ⟨[RegisterCall.task ⟨sampleGenerate, " ", "pw"⟩,
          RegisterCall.task ⟨sampleGenerate, " ", "pw"⟩], Store.init⟩ [0, 1]).results
          = [some (some InvalidInput), some (some InvalidInput)] := by
  decide

/-- C15, amended: take any number (at least one) of register calls whose usernames
trim to the same non-empty `name`, whose passwords are non-empty after trimming
and whose hash computations succeed, on stores where `name` is not registered.
Under every interleaving that lets all of them finish, one call answers Created
and each of the others UserExists, and the user list ends with exactly one
record for `name`. -/
theorem concurrent_register_one_created
    (s : Store) (name : String) (calls : List RegisterCall) (schedule : List Nat)
    (hN : 1 ≤ calls.length) (hname : name ≠ "")
    (hs : findUser s.users name = none)
    (hcalls : ∀ c ∈ calls, trimSpace c.username = name ∧ trimSpace c.password ≠ ""
      ∧ ∃ h, c.gen (trimSpace c.password) = .ok h)
    (hdone : ∀ r ∈ (Pool.run ⟨calls.map RegisterCall.task, s⟩ schedule).results, r ≠ none) :
    (∃ i : Nat, i < calls.length
        ∧ (Pool.run ⟨calls.map RegisterCall.task, s⟩ schedule).results[i]?
            = some (some (some Created))
        ∧ ∀ j : Nat, j < calls.length → j ≠ i →
            (Pool.run ⟨calls.map RegisterCall.task, s⟩ schedule).results[j]?
              = some (some (some UserExists)))
      ∧ (Pool.run ⟨calls.map RegisterCall.task, s⟩ schedule).results.length = calls.length
      ∧ userCount (Pool.run ⟨calls.map RegisterCall.task, s⟩ schedule).store.users name = 1 := by
  have hstart : RegisterRace name ⟨calls.map RegisterCall.task, s⟩ := by
    refine Or.inl ⟨(userCount_zero_iff _ _).mpr hs, fun j t hj => ?_⟩
    simp only [List.getElem?_map] at hj
    cases hc : calls[j]? with
    | none => rw [hc] at hj; cases hj
    | some c =>
      rw [hc] at hj
      have hmem : c ∈ calls := List.getElem?_mem hc
      obtain ⟨a, b, d⟩ := hcalls c hmem
      exact ⟨c, (Option.some.inj hj).symm, a, b, d⟩
  obtain ⟨hlen, hrace⟩ := register_pool_run name calls.length hname schedule
    ⟨calls.map RegisterCall.task, s⟩ (by simp) hstart
  generalize Pool.run ⟨calls.map RegisterCall.task, s⟩ schedule = q at hlen hrace hdone
  have hres : ∀ (j : Nat) (t : Task), q.tasks[j]? = some t → t.result ≠ none := by
    intro j t hj
    apply hdone
    unfold Pool.results
    exact List.mem_map.mpr ⟨t, List.getElem?_mem hj, rfl⟩
  have hget : ∀ j : Nat, j < calls.length → ∃ t, q.tasks[j]? = some t := by
    intro j hj
    exact ⟨q.tasks[j], List.getElem?_eq_getElem (by omega)⟩
  rcases hrace with ⟨_, hall⟩ | ⟨hc, i, hi, hall⟩
  · obtain ⟨t, ht⟩ := hget 0 (by omega)
    exact absurd (pendingRegister_result name t (hall 0 t ht)) (hres 0 t ht)
  · have hilt : i < calls.length := by
      by_contra hge
      rw [List.getElem?_eq_none (by omega)] at hi
      cases hi
    refine ⟨⟨i, hilt, ?_, ?_⟩, by simp [Pool.results, hlen], hc⟩
    · simp [Pool.results, hi, Task.result]
    · intro j hj hji
      obtain ⟨t, ht⟩ := hget j hj
      rcases hall j t hji ht with hp | hd
      · exact absurd (pendingRegister_result name t hp) (hres j t ht)
      · simp [Pool.results, ht, hd, Task.result]

/-- Witness of C15 amended: three calls for alice, the third taking the lock first. -/
theorem concurrent_register_one_created_witness :
    (∃ i : Nat, i < 3
        ∧ (Pool.run ⟨[RegisterCall.task ⟨sampleGenerate, "alice", "pw"⟩,
            RegisterCall.task ⟨sampleGenerate, " alice", "other"⟩,
            RegisterCall.task ⟨sampleGenerate, "alice ", "third"⟩], Store.init⟩
            [2, 0, 1]).results[i]? = some (some (some Created))
        ∧ ∀ j : Nat, j < 3 → j ≠ i →
            (Pool.run ⟨[RegisterCall.task ⟨sampleGenerate, "alice", "pw"⟩,
              RegisterCall.task ⟨sampleGenerate, " alice", "other"⟩,
              RegisterCall.task ⟨sampleGenerate, "alice ", "third"⟩], Store.init⟩
              [2, 0, 1]).results[j]? = some (some (some UserExists))) :=
  (concurrent_register_one_created Store.init "alice"
    [⟨sampleGenerate, "alice", "pw"⟩, ⟨sampleGenerate, " alice", "other"⟩,
      ⟨sampleGenerate, "alice ", "third"⟩] [2, 0, 1]
    (by decide) (by decide) (by decide)
    (by
      intro c hc
      simp only [List.mem_cons, List.mem_singleton, List.not_mem_nil, or_false] at hc
      rcases hc with rfl | rfl | rfl
      · exact ⟨by decide, by decide, _, rfl⟩
      · exact ⟨by decide, by decide, _, rfl⟩
      · exact ⟨by decide, by decide, _, rfl⟩)
    (by decide)).1

/-- C16: the code at two interleavings that no sequential execution matches.
Two verifyOTP requests with alice's pending code, both reading the entry
before either deletes it, both answer Authenticated, while served one after
the other the second answers NoPendingOTP. A verifyOTP that read an expired
entry and deletes after a concurrent login has stored a fresh one leaves alice
without an entry although the login answered OTPPending; served in either
order, the two requests leave the fresh entry in the store. -/
theorem verifyOTP_race_not_linearizable :
    (Pool.run ⟨[Task.verify 50 (verifyOTP "alice" "482913"),
        Task.verify 50 (verifyOTP "alice" "482913")],
        ⟨sampleStore.users, [("alice", ⟨"482913", 100⟩)]⟩⟩ [0, 1, 0, 1]).results
        = [some (some Authenticated), some (some Authenticated)]
      ∧ (Pool.run ⟨[Task.verify 50 (verifyOTP "alice" "482913"),
          Task.verify 50 (verifyOTP "alice" "482913")],
          ⟨sampleStore.users, [("alice", ⟨"482913", 100⟩)]⟩⟩ [0, 0, 1, 1]).results
          = [some (some Authenticated), some (some NoPendingOTP)]
      ∧ (Pool.run ⟨[Task.verify 50 (verifyOTP "alice" "482913"),
          Task.verify 50 (verifyOTP "alice" "482913")],
          ⟨sampleStore.users, [("alice", ⟨"482913", 100⟩)]⟩⟩ [1, 1, 0, 0]).results
          = [some (some NoPendingOTP), some (some Authenticated)]
      ∧ (Pool.run ⟨[Task.verify 101 (verifyOTP "alice" "482913"),
          Task.login sampleCompare (.ok 5) 101 (login "alice" "Secr3t!")],
          ⟨sampleStore.users, [("alice", ⟨"482913", 100⟩)]⟩⟩ [0, 1, 1, 0]).results
          = [some (some OTPExpired), some (some OTPPending)]
      ∧ mapGet (Pool.run ⟨[Task.verify 101 (verifyOTP "alice" "482913"),
          Task.login sampleCompare (.ok 5) 101 (login "alice" "Secr3t!")],
          ⟨sampleStore.users, [("alice", ⟨"482913", 100⟩)]⟩⟩ [0, 1, 1, 0]).store.otpData "alice"
          = none
      ∧ mapGet (Pool.run ⟨[Task.verify 101 (verifyOTP "alice" "482913"),
          Task.login sampleCompare (.ok 5) 101 (login "alice" "Secr3t!")],
          ⟨sampleStore.users, [("alice", ⟨"482913", 100⟩)]⟩⟩ [0, 0, 1, 1]).store.otpData "alice"
          = some ⟨"100005", 101 + twoMinutes⟩
      ∧ mapGet (Pool.run ⟨[Task.verify 101 (verifyOTP "alice" "482913"),
          Task.login sampleCompare (.ok 5) 101 (login "alice" "Secr3t!")],
          ⟨sampleStore.users, [("alice", ⟨"482913", 100⟩)]⟩⟩ [1, 1, 0, 0]).store.otpData "alice"
          = some ⟨"100005", 101 + twoMinutes⟩ := by
  decide

end MFALogin
